import Mathlib

/-!
Shallow embedding of the exclave unit library and interface runtime
(`src/unitlibrary.rs`, `src/units/interface.rs`, `src/unitwatcher.rs`).

Rust strings are modelled as Lean `String`/`List Char`; `HashMap<K, V>` as an
association list `List (K × V)` (iteration order is fixed, which refines the
unordered map); `HashMap<K, ()>` dirty sets as `List K`.  The pieces of the
repository that are not under `src/` (unit.rs, unitmanager.rs,
unitbroadcaster.rs, the systemd unit-file parser and the `runny` process
spawner) are modelled from the spec, as marked on each such definition.
-/

namespace Exclave

/-- Unit kinds, from the spec §3 (`unit.rs` is not in `src/`): Jig, Interface,
Logger, Trigger, Test, Scenario plus the reserved `Internal` sentinel. -/
inductive UnitKind where
  | jig
  | interface
  | logger
  | trigger
  | test
  | scenario
  | internal
deriving DecidableEq

/-- Modelled from the spec §3: a unit name is a pair `(kind, id)`;
two names are equal iff both components are equal. -/
structure UnitName where
  kind : UnitKind
  id : String
deriving DecidableEq

/-- File paths are modelled as plain strings. -/
abbrev Path := String

/-- Modelled from the spec §3 (`unitbroadcaster.rs` is not in `src/`):
the per-unit lifecycle status variants. -/
inductive UnitStatus where
  | loadStarted (path : Path)
  | updateStarted (path : Path)
  | unloadStarted (path : Path)
  | loadFailed (reason : String)
deriving DecidableEq

/-- Modelled from the spec §4.1 (`unitbroadcaster.rs` is not in `src/`): the
events broadcast on the event bus that `unitlibrary.rs` produces or consumes.
The human-readable category summary string (`Number of units on disk: n`) is
abstracted to the count `n` it reports. -/
inductive UnitEvent where
  | status (name : UnitName) (st : UnitStatus)
  | category (kind : UnitKind) (count : Nat)
  | rescanRequest
  | rescanStart
  | rescanFinish
deriving DecidableEq

/- ------------------------------------------------------------------
   Escape-coded framing (src/units/interface.rs lines 278-283, 382-415)
   ------------------------------------------------------------------ -/

/-- One pass of Rust `str::replace` for a single-character pattern:
every occurrence of `pat` is replaced by `rep`. -/
def replace1 (pat : Char) (rep : List Char) : List Char → List Char
  | [] => []
  | c :: cs => (if c = pat then rep else [c]) ++ replace1 pat rep cs

/-- `Interface::cfti_escape` on the character list of the message
(src/units/interface.rs lines 278-283): the four sequential `replace` calls,
backslash first, then tab, newline, carriage return. -/
def cfti_escape_list (msg : List Char) : List Char :=
  replace1 '\r' ['\\', 'r']
    (replace1 '\n' ['\\', 'n']
      (replace1 '\t' ['\\', 't']
        (replace1 '\\' ['\\', '\\'] msg)))

/-- `Interface::cfti_escape` (src/units/interface.rs lines 278-283). -/
def cfti_escape (msg : String) : String :=
  ⟨cfti_escape_list msg.data⟩

/-- The character loop of `Interface::cfti_unescape`
(src/units/interface.rs lines 382-415), with the `was_bs` flag threaded
through; output characters are produced in the order the Rust code pushes
them onto `out`. -/
def cfti_unescape_go (was_bs : Bool) : List Char → List Char
  | [] => []
  | c :: rest =>
    if c = '\\' then
      if was_bs then '\\' :: cfti_unescape_go false rest
      else cfti_unescape_go true rest
    else if c = 't' then (if was_bs then '\t' else 't') :: cfti_unescape_go false rest
    else if c = 'r' then (if was_bs then '\r' else 'r') :: cfti_unescape_go false rest
    else if c = 'n' then (if was_bs then '\n' else 'n') :: cfti_unescape_go false rest
    else c :: cfti_unescape_go false rest

/-- `Interface::cfti_unescape` (src/units/interface.rs lines 382-415). -/
def cfti_unescape (msg : String) : String :=
  ⟨cfti_unescape_go false msg.data⟩

/-- The per-character expansion that the four sequential replaces of
`cfti_escape` amount to (proved in `cfti_escape_list_eq_flatMap`). -/
def escChar (c : Char) : List Char :=
  if c = '\\' then ['\\', '\\']
  else if c = '\t' then ['\\', 't']
  else if c = '\n' then ['\\', 'n']
  else if c = '\r' then ['\\', 'r']
  else [c]

/- ------------------------------------------------------------------
   Unit naming (modelled: unit.rs is not in src/)
   ------------------------------------------------------------------ -/

/-- Modelled from the spec (`unit.rs` is not in `src/`): the error produced
when a unit-name string cannot be parsed. -/
inductive UnitNameError where
  | unrecognizedKind (kind : String)
deriving DecidableEq

/-- Modelled from the spec §4.2: kind names, case-folded, as they appear in
file extensions and dotted names. `Internal` has no extension. -/
def UnitKind.from_str (s : String) : Option UnitKind :=
  if s = "jig" then some UnitKind.jig
  else if s = "interface" then some UnitKind.interface
  else if s = "logger" then some UnitKind.logger
  else if s = "trigger" then some UnitKind.trigger
  else if s = "test" then some UnitKind.test
  else if s = "scenario" then some UnitKind.scenario
  else none

/-- Lowercase folding of a string, modelling Rust `str::to_lowercase`
(ASCII case folding suffices for unit ids). -/
def lowercase (s : String) : String :=
  ⟨s.data.map Char.toLower⟩

/-- Splitting a character list at every separator satisfying `p`, keeping
empty fragments (the behavior of Rust `str::split`); `cur` holds the current
fragment in reverse. -/
def split_pred_go (p : Char → Bool) (cur : List Char) : List Char → List (List Char)
  | [] => [cur.reverse]
  | c :: rest =>
    if p c then cur.reverse :: split_pred_go p [] rest
    else split_pred_go p (c :: cur) rest

/-- Splitting a string at every separator satisfying `p`, keeping empty
fragments. -/
def split_pred (p : Char → Bool) (s : String) : List String :=
  (split_pred_go p [] s.data).map (fun l => ⟨l⟩)

/-- Modelled from the spec §4.2 (`unit.rs` is not in `src/`):
`UnitName::from_str` accepts either `id.kind` or a bare `id`, in which case
`default_kind` applies; ids and kind names are case-folded to lowercase. -/
def UnitName.from_str (s : String) (default_kind : String) : Except UnitNameError UnitName :=
  let s := lowercase s
  match split_pred (fun c => c = '.') s with
  | [id, kind] =>
    match UnitKind.from_str kind with
    | some k => Except.ok ⟨k, id⟩
    | none => Except.error (UnitNameError.unrecognizedKind kind)
  | _ =>
    match UnitKind.from_str default_kind with
    | some k => Except.ok ⟨k, s⟩
    | none => Except.error (UnitNameError.unrecognizedKind default_kind)

/-- Modelled from the spec §4.8 (`unit.rs` is not in `src/`):
`UnitName::from_list` parses a comma/space separated list of names, each with
the given default kind. -/
def UnitName.from_list (s : String) (default_kind : String) : Except UnitNameError (List UnitName) :=
  ((split_pred (fun c => c = ',' || c = ' ') s).filter (fun t => !t.isEmpty)).mapM
    (fun t => UnitName.from_str t default_kind)

/-- Rendering of a `UnitNameError` for interpolation into reason strings;
models the `Display` impl in `unit.rs` (not in `src/`), whose exact wording
is immaterial to the claims. -/
def UnitNameError.fmt : UnitNameError → String
  | UnitNameError.unrecognizedKind k => String.append "unrecognized unit kind " k

/- ------------------------------------------------------------------
   Unit manager (modelled: unitmanager.rs is not in src/)
   ------------------------------------------------------------------ -/

/-- Inserts a key into a set-like list if it is not already present
(`HashMap<UnitName, ()>::insert`). -/
def dsInsert (d : List UnitName) (k : UnitName) : List UnitName :=
  if k ∈ d then d else d ++ [k]

/-- Removes a key from a set-like list (`HashMap<UnitName, ()>::remove`). -/
def dsRemove (d : List UnitName) (k : UnitName) : List UnitName :=
  d.filter (fun x => !(x == k))

/-- Association-list lookup (`HashMap::get`). -/
def alGet {α : Type} (m : List (UnitName × α)) (k : UnitName) : Option α :=
  (m.find? (fun p => p.1 == k)).map (fun p => p.2)

/-- Association-list insert with replacement (`HashMap::insert`). -/
def alInsert {α : Type} (m : List (UnitName × α)) (k : UnitName) (v : α) : List (UnitName × α) :=
  (m.filter (fun p => !(p.1 == k))) ++ [(k, v)]

/-- Association-list removal (`HashMap::remove`). -/
def alRemove {α : Type} (m : List (UnitName × α)) (k : UnitName) : List (UnitName × α) :=
  m.filter (fun p => !(p.1 == k))

/-- Modelled from the spec §3 (the per-kind description sources other than
`units/interface.rs` are not in `src/`): a parsed unit description exposes its
id, the list of compatible jig names behind `supports_jig`, and, for
scenarios, the ordered tests of its composition. -/
structure Desc where
  id : UnitName
  jigs : List UnitName
  tests : List UnitName
deriving DecidableEq

/-- `supports_jig` of a modelled description: membership in its jig list,
as in `InterfaceDescription::supports_jig` (src/units/interface.rs 143-145). -/
def Desc.supports_jig (d : Desc) (name : UnitName) : Bool :=
  d.jigs.contains name

/-- Modelled from the spec §4.7 (`unitmanager.rs` is not in `src/`): the Unit
Manager holds the set of loaded unit instances, the selected and active ids,
and the loaded scenario instances with the tests each one uses. -/
structure Manager where
  loaded : List UnitName
  selected : List UnitName
  active : List UnitName
  scenarios : List (UnitName × List UnitName)
deriving DecidableEq

/-- Modelled from the spec §4.7: `jig_is_loaded(&name)` is membership of the
name among the loaded units. -/
def Manager.jig_is_loaded (m : Manager) (name : UnitName) : Bool :=
  m.loaded.contains name

/-- Modelled from the spec §4.7: `unload(&name)` drops the instance (and any
selection/activation/loaded scenario) for that id. -/
def Manager.unload (m : Manager) (name : UnitName) : Manager :=
  { m with
    loaded := dsRemove m.loaded name
    selected := dsRemove m.selected name
    active := dsRemove m.active name
    scenarios := alRemove m.scenarios name }

/-- Reason string recorded when a unit is incompatible; models the `Display`
impl of `UnitIncompatibleReason` in `unit.rs` (not in `src/`). -/
def incompatibleJigReason : String := "incompatible jig"

/-- Modelled from the spec §4.6/§7 (`unitmanager.rs` is not in `src/`):
`load_<kind>` succeeds when the description is compatible — its jig list is
empty or one of its listed jigs is loaded, the same rule as
`InterfaceDescription::is_compatible` (src/units/interface.rs 147-162) — and
then records the instance.  An incompatible description is a load error, and
per the spec §7 ("Compatibility errors are recorded as `LoadFailed` on the
affected unit and broadcast as status events … no silent failures") the
manager — which holds a clone of the broadcaster
(`UnitManager::new(broadcaster, config)`, src/unitlibrary.rs 175) —
broadcasts the failure as a status event carrying the reason verbatim.  The
result is returned together with the list of events the manager broadcast
during the call. -/
def Manager.load_unit (m : Manager) (d : Desc) : Except String Manager × List UnitEvent :=
  if d.jigs.isEmpty || d.jigs.any (fun j => m.jig_is_loaded j) then
    (Except.ok
      { m with
        loaded := dsInsert m.loaded d.id
        scenarios :=
          if d.id.kind = UnitKind.scenario then alInsert m.scenarios d.id d.tests
          else m.scenarios }, [])
  else
    (Except.error incompatibleJigReason,
      [UnitEvent.status d.id (UnitStatus.loadFailed incompatibleJigReason)])

/-- Modelled from the spec §4.7: `select(&name)` marks the id selected. -/
def Manager.select (m : Manager) (name : UnitName) : Manager :=
  { m with selected := dsInsert m.selected name }

/-- Modelled from the spec §4.7: `activate(&name)` marks the id active. -/
def Manager.activate (m : Manager) (name : UnitName) : Manager :=
  { m with active := dsInsert m.active name }

/-- Modelled from the spec §4.6 step 11: `refresh_defaults` re-derives default
selections; it touches no unit-library state, so it is the identity on the
state observed by the claims. -/
def Manager.refresh_defaults (m : Manager) : Manager := m

/- ------------------------------------------------------------------
   Interface description parsing (src/units/interface.rs lines 25-177)
   ------------------------------------------------------------------ -/

/-- The `UnitDescriptionError` variants used by
`InterfaceDescription::from_path` (the enum lives in `unit.rs`, not in
`src/`; the variants and payloads are those constructed in
src/units/interface.rs lines 69, 110-113, 124-129 and the `?` on name
parsing). -/
inductive UnitDescriptionError where
  | missingSection (section_name : String)
  | missingValue (section_name : String) (key : String)
  | invalidValue (section_name : String) (key : String) (value : String) (valid : List String)
  | nameError (e : UnitNameError)
deriving DecidableEq

/-- A `Format` selector (src/units/interface.rs lines 25-29). -/
inductive InterfaceFormat where
  | text
  | json
deriving DecidableEq

/-- A single `Key=Value` directive of a parsed unit file.  Modelled from the
spec §6: the INI-style unit-file parser is an external collaborator; a
directive holds a key and an optional value (`DirectiveEntry::Solo`). -/
structure SystemdDirective where
  key : String
  value : Option String
deriving DecidableEq

/-- A parsed unit file, modelled from the spec §6: bracketed sections, each
holding its directives in order. -/
structure SystemdUnitFile where
  categories : List (String × List SystemdDirective)
deriving DecidableEq

/-- `has_category` of the parsed unit file. -/
def SystemdUnitFile.has_category (f : SystemdUnitFile) (c : String) : Bool :=
  f.categories.any (fun p => p.1 == c)

/-- `lookup_by_category`: the directives of the named section, in order. -/
def SystemdUnitFile.lookup_by_category (f : SystemdUnitFile) (c : String) : List SystemdDirective :=
  (f.categories.filter (fun p => p.1 == c)).flatMap (fun p => p.2)

/-- An in-memory representation of a `.interface` file
(src/units/interface.rs lines 31-57). -/
structure InterfaceDescription where
  id : UnitName
  name : String
  description : String
  jigs : List UnitName
  exec_start : String
  format : InterfaceFormat
  working_directory : Option Path
  unit_directory : Path
deriving DecidableEq

/-- One arm of the directive loop of `InterfaceDescription::from_path`
(src/units/interface.rs lines 83-138): how a single `[Interface]` directive
updates the description being built, or aborts with a parse error. -/
def applyInterfaceDirective (acc : InterfaceDescription) (dir : SystemdDirective) :
    Except UnitDescriptionError InterfaceDescription :=
  if dir.key = "Name" then
    Except.ok { acc with name := dir.value.getD "" }
  else if dir.key = "Description" then
    Except.ok { acc with description := dir.value.getD "" }
  else if dir.key = "Jigs" then
    match dir.value with
    | some s =>
      match UnitName.from_list s "jig" with
      | Except.ok js => Except.ok { acc with jigs := js }
      | Except.error e => Except.error (UnitDescriptionError.nameError e)
    | none => Except.ok { acc with jigs := [] }
  else if dir.key = "WorkingDirectory" then
    Except.ok
      (match dir.value with
       | some wd => { acc with working_directory := some wd }
       | none => acc)
  else if dir.key = "ExecStart" then
    match dir.value with
    | some s => Except.ok { acc with exec_start := s }
    | none => Except.error (UnitDescriptionError.missingValue "Interface" "ExecStart")
  else if dir.key = "Format" then
    match dir.value with
    | none => Except.ok { acc with format := InterfaceFormat.text }
    | some s =>
      if lowercase s = "text" then Except.ok { acc with format := InterfaceFormat.text }
      else if lowercase s = "json" then Except.ok { acc with format := InterfaceFormat.json }
      else
        Except.error
          (UnitDescriptionError.invalidValue "Interface" "Format" (lowercase s) ["text", "json"])
  else
    Except.ok acc

/-- The directive loop of `InterfaceDescription::from_path`, stopping at the
first parse error (the `return Err` arms of src/units/interface.rs 83-138). -/
def applyInterfaceDirectives (acc : InterfaceDescription) :
    List SystemdDirective → Except UnitDescriptionError InterfaceDescription
  | [] => Except.ok acc
  | dir :: rest =>
    match applyInterfaceDirective acc dir with
    | Except.error e => Except.error e
    | Except.ok acc2 => applyInterfaceDirectives acc2 rest

/-- `InterfaceDescription::from_path` (src/units/interface.rs lines 60-140),
with the I/O dependencies taken as arguments: `unit_name` is the result of
`UnitName::from_path`, `unit_file` the parsed file contents, and
`unit_directory` the parent directory of the path. -/
def InterfaceDescription.from_path (unit_name : UnitName) (unit_file : SystemdUnitFile)
    (unit_directory : Path) : Except UnitDescriptionError InterfaceDescription :=
  if !unit_file.has_category "Interface" then
    Except.error (UnitDescriptionError.missingSection "Interface")
  else
    applyInterfaceDirectives
      { id := unit_name
        name := ""
        description := ""
        jigs := []
        format := InterfaceFormat.text
        exec_start := ""
        working_directory := none
        unit_directory := unit_directory }
      (unit_file.lookup_by_category "Interface")

/-- `InterfaceDescription::supports_jig` (src/units/interface.rs 143-145). -/
def InterfaceDescription.supports_jig (d : InterfaceDescription) (name : UnitName) : Bool :=
  d.jigs.contains name

/-- The `UnitIncompatibleReason` variant used by
`InterfaceDescription::is_compatible` (the enum lives in `unit.rs`, not in
`src/`). -/
inductive UnitIncompatibleReason where
  | incompatibleJig
deriving DecidableEq

/-- The `for jig_name in &self.jigs` loop of
`InterfaceDescription::is_compatible` (src/units/interface.rs 156-161):
returns `Ok` at the first loaded jig, `IncompatibleJig` after the loop. -/
def is_compatible_loop (manager : Manager) : List UnitName → Except UnitIncompatibleReason Unit
  | [] => Except.error UnitIncompatibleReason.incompatibleJig
  | j :: rest =>
    if manager.jig_is_loaded j then Except.ok () else is_compatible_loop manager rest

/-- `InterfaceDescription::is_compatible` (src/units/interface.rs 147-162). -/
def InterfaceDescription.is_compatible (d : InterfaceDescription) (manager : Manager) :
    Except UnitIncompatibleReason Unit :=
  if d.jigs.length = 0 then Except.ok ()
  else is_compatible_loop manager d.jigs

/- ------------------------------------------------------------------
   Interface runtime (src/units/interface.rs lines 179-529)
   ------------------------------------------------------------------ -/

/-- A live child-process handle.  Modelled from the spec §6: the process
supervisor (`runny`) is an external collaborator; the handle is opaque. -/
structure Running where
  handle : Nat
deriving DecidableEq

/-- `ManagerControlMessageContents` variants constructed in
src/units/interface.rs (the enum lives in `unitmanager.rs`, not in `src/`).
Reason strings rendered with `format!` in the source are modelled by plain
string concatenation; their exact wording is immaterial to the claims. -/
inductive ManagerControlMessageContents where
  | scenarios
  | scenario (name : UnitName)
  | error (msg : String)
  | tests (name : Option UnitName)
  | jig
  | log (msg : String)
  | startScenario (name : Option UnitName)
  | shutdown (reason : Option String)
  | unimplemented (verb : String) (rest : String)
  | initialGreeting
  | logError (line : String)
  | childExited
deriving DecidableEq

/-- A control message: the sending unit's id plus the contents
(`ManagerControlMessage::new(&id, contents)`). -/
structure ManagerControlMessage where
  id : UnitName
  contents : ManagerControlMessageContents
deriving DecidableEq

/-- Rust `str::split_whitespace`: split on whitespace, dropping empty
fragments. -/
def split_whitespace (s : String) : List String :=
  (split_pred Char.isWhitespace s).filter (fun t => !t.isEmpty)

/-- The body of the `text_read` line loop (src/units/interface.rs 435-516):
split the line on whitespace, unescape every word, skip blank lines, and
translate the case-folded verb into control-message contents. -/
def text_read_line (line : String) : Option ManagerControlMessageContents :=
  let words : List String := (split_whitespace line).map (fun x => cfti_unescape x)
  match words with
  | [] => none
  | w0 :: ws =>
    let verb := lowercase w0
    some
      (if verb = "scenarios" then ManagerControlMessageContents.scenarios
       else if verb = "scenario" then
         match UnitName.from_str (lowercase (ws.headD "")) "scenario" with
         | Except.error e =>
           ManagerControlMessageContents.error
             (String.append "invalid scenario name: " e.fmt)
         | Except.ok o => ManagerControlMessageContents.scenario o
       else if verb = "tests" then
         match ws with
         | [] => ManagerControlMessageContents.tests none
         | w1 :: _ =>
           match UnitName.from_str (lowercase w1) "test" with
           | Except.ok scenario_name => ManagerControlMessageContents.tests (some scenario_name)
           | Except.error e =>
             ManagerControlMessageContents.error
               (String.append "invalid test name specified: " e.fmt)
       else if verb = "jig" then ManagerControlMessageContents.jig
       else if verb = "log" then ManagerControlMessageContents.log (String.intercalate " " ws)
       else if verb = "start" then
         match ws with
         | [] => ManagerControlMessageContents.startScenario none
         | _ :: _ =>
           match UnitName.from_str (lowercase (ws.headD "")) "scenario" with
           | Except.error e =>
             ManagerControlMessageContents.error
               (String.append "invalid scenario name: " e.fmt)
           | Except.ok o => ManagerControlMessageContents.startScenario (some o)
       else if verb = "shutdown" then
         match ws with
         | [] => ManagerControlMessageContents.shutdown none
         | _ :: _ => ManagerControlMessageContents.shutdown (some (String.intercalate " " ws))
       else ManagerControlMessageContents.unimplemented verb (String.intercalate " " ws))

/-- The manager's control channel, seen from a sender: an mpsc channel whose
receiver may hang up at some point in the send sequence.  `none` means every
send succeeds; `some k` means the first `k` sends succeed and all later sends
fail (a closed channel stays closed).  `some 0` is a closed channel: every
send on it fails. -/
def ControlChannel := Option Nat

/-- One send on the control channel: whether it succeeds, and the channel
state afterwards. -/
def chanSend : ControlChannel → Bool × ControlChannel
  | none => (true, none)
  | some 0 => (false, some 0)
  | some (k + 1) => (true, some k)

/-- The outcome of the `text_read` thread: either the function returned, or
the final `.expect` on the `ChildExited` send panicked.  Both record the
control messages successfully delivered, in order. -/
inductive TextReadResult where
  | returned (sent : List ManagerControlMessage)
  | panicked (sent : List ManagerControlMessage)
deriving DecidableEq

/-- The code after the `text_read` line loop (src/units/interface.rs 523-528):
send `ChildExited`, panicking via `.expect` if the send fails. -/
def text_read_finish (id : UnitName) (ch : ControlChannel)
    (sent : List ManagerControlMessage) : TextReadResult :=
  match chanSend ch with
  | (true, _) =>
    TextReadResult.returned
      (sent ++ [⟨id, ManagerControlMessageContents.childExited⟩])
  | (false, _) => TextReadResult.panicked sent

/-- The `for line in ...lines()` loop of `text_read`
(src/units/interface.rs 434-529): each line is parsed and its response sent
on the control channel; a failed send breaks out of the loop.  After the loop
(by break or by end of stream) the `ChildExited` send of
`text_read_finish` runs. -/
def text_read_go (id : UnitName) (ch : ControlChannel)
    (sent : List ManagerControlMessage) : List String → TextReadResult
  | [] => text_read_finish id ch sent
  | line :: rest =>
    match text_read_line line with
    | none => text_read_go id ch sent rest
    | some response =>
      match chanSend ch with
      | (true, ch2) => text_read_go id ch2 (sent ++ [⟨id, response⟩]) rest
      | (false, ch2) => text_read_finish id ch2 sent

/-- `Interface::text_read` (src/units/interface.rs 434-529), over the list of
lines the child writes to stdout and the state of the control channel. -/
def Interface.text_read (id : UnitName) (ch : ControlChannel) (stdout : List String) :
    TextReadResult :=
  text_read_go id ch [] stdout

/-- `Interface::text_read_stderr` (src/units/interface.rs 417-432): every
stderr line is forwarded as `LogError`; a failed send breaks the loop, and
nothing runs after it. -/
def Interface.text_read_stderr (id : UnitName) (ch : ControlChannel)
    (sent : List ManagerControlMessage) : List String → List ManagerControlMessage
  | [] => sent
  | line :: rest =>
    match chanSend ch with
    | (true, ch2) =>
      Interface.text_read_stderr id ch2
        (sent ++ [⟨id, ManagerControlMessageContents.logError line⟩]) rest
    | (false, _) => sent

/-- `UnitActivateError` as used by `Interface::activate` (the enum lives in
`unit.rs`, not in `src/`): the `?` on `Runny::start` wraps the spawn error. -/
inductive UnitActivateError where
  | spawnFailed (e : String)
deriving DecidableEq

/-- A live Interface instance (src/units/interface.rs lines 179-183):
the description, the optional child-process handle, and the
terminate-timeout (in, say, milliseconds). -/
structure Interface where
  desc : InterfaceDescription
  process : Option Running
  terminate_timeout : Nat
deriving DecidableEq

/-- `Interface::new` (src/units/interface.rs 186-192): no process handle is
held initially. -/
def Interface.new (desc : InterfaceDescription) (terminate_timeout : Nat) : Interface :=
  { desc := desc, process := none, terminate_timeout := terminate_timeout }

/-- `Interface::activate` (src/units/interface.rs 206-250), with the spawn of
the configured command taken as an argument (`spawn_result` is what
`Runny::start` returned; the spawner is an external collaborator per the
spec §6).  Returns the activation result, the instance state afterwards, and
the control messages sent.  On a spawn failure the `?` operator returns
before the process handle is stored and before the greeting is sent.  The
`InitialGreeting` send has its result discarded (`.ok()`), so a closed
control channel does not change the outcome. -/
def Interface.activate (i : Interface) (spawn_result : Except String Running)
    (ch : ControlChannel) :
    Except UnitActivateError Unit × Interface × List ManagerControlMessage :=
  match spawn_result with
  | Except.error e => (Except.error (UnitActivateError.spawnFailed e), i, [])
  | Except.ok running =>
    let i2 := { i with process := some running }
    match chanSend ch with
    | (true, _) =>
      (Except.ok (), i2, [⟨i.desc.id, ManagerControlMessageContents.initialGreeting⟩])
    | (false, _) => (Except.ok (), i2, [])

/-- `Interface::deactivate` (src/units/interface.rs 252-264), with the result
of `terminate` taken as an argument when a process is held. -/
def Interface.deactivate (i : Interface) (terminate_result : Except String Int) :
    Except String Unit × Interface :=
  match i.process with
  | some _ =>
    (match terminate_result with
     | Except.ok retval => if retval = 0 then Except.ok () else Except.error "non-zero return"
     | Except.error e => Except.error e,
     { i with process := none })
  | none => (Except.ok (), i)

/- ------------------------------------------------------------------
   Unit library (src/unitlibrary.rs)
   ------------------------------------------------------------------ -/

/-- The `UnitLibrary` state (src/unitlibrary.rs lines 119-153), together
with the log of events broadcast so far (the `UnitBroadcaster` fans events
out to subscribers; the log records every `broadcast` call in order).  The
library-level model stores the abstract `Desc` in every description table;
the per-kind parsers are supplied as a parameter where the source calls
`<Kind>Description::from_path`. -/
structure LibraryState where
  broadcasts : List UnitEvent
  unit_status : List (UnitName × UnitStatus)
  interface_descriptions : List (UnitName × Desc)
  jig_descriptions : List (UnitName × Desc)
  logger_descriptions : List (UnitName × Desc)
  scenario_descriptions : List (UnitName × Desc)
  test_descriptions : List (UnitName × Desc)
  trigger_descriptions : List (UnitName × Desc)
  dirty_interfaces : List UnitName
  dirty_jigs : List UnitName
  dirty_loggers : List UnitName
  dirty_scenarios : List UnitName
  dirty_tests : List UnitName
  dirty_triggers : List UnitName
  unit_manager : Manager
deriving DecidableEq

/-- `self.broadcaster.broadcast(&evt)`: append the event to the log. -/
def broadcast (s : LibraryState) (e : UnitEvent) : LibraryState :=
  { s with broadcasts := s.broadcasts ++ [e] }

/-- The description store of the given kind (`Internal` has none). -/
def LibraryState.descsOf (s : LibraryState) : UnitKind → List (UnitName × Desc)
  | UnitKind.interface => s.interface_descriptions
  | UnitKind.jig => s.jig_descriptions
  | UnitKind.logger => s.logger_descriptions
  | UnitKind.scenario => s.scenario_descriptions
  | UnitKind.test => s.test_descriptions
  | UnitKind.trigger => s.trigger_descriptions
  | UnitKind.internal => []

/-- Replace the description store of the given kind (`Internal`: no-op). -/
def LibraryState.setDescs (s : LibraryState) (k : UnitKind) (m : List (UnitName × Desc)) :
    LibraryState :=
  match k with
  | UnitKind.interface => { s with interface_descriptions := m }
  | UnitKind.jig => { s with jig_descriptions := m }
  | UnitKind.logger => { s with logger_descriptions := m }
  | UnitKind.scenario => { s with scenario_descriptions := m }
  | UnitKind.test => { s with test_descriptions := m }
  | UnitKind.trigger => { s with trigger_descriptions := m }
  | UnitKind.internal => s

/-- The dirty set of the given kind (`Internal` has none). -/
def LibraryState.dirtyOf (s : LibraryState) : UnitKind → List UnitName
  | UnitKind.interface => s.dirty_interfaces
  | UnitKind.jig => s.dirty_jigs
  | UnitKind.logger => s.dirty_loggers
  | UnitKind.scenario => s.dirty_scenarios
  | UnitKind.test => s.dirty_tests
  | UnitKind.trigger => s.dirty_triggers
  | UnitKind.internal => []

/-- Replace the dirty set of the given kind (`Internal`: no-op). -/
def LibraryState.setDirty (s : LibraryState) (k : UnitKind) (d : List UnitName) : LibraryState :=
  match k with
  | UnitKind.interface => { s with dirty_interfaces := d }
  | UnitKind.jig => { s with dirty_jigs := d }
  | UnitKind.logger => { s with dirty_loggers := d }
  | UnitKind.scenario => { s with dirty_scenarios := d }
  | UnitKind.test => { s with dirty_tests := d }
  | UnitKind.trigger => { s with dirty_triggers := d }
  | UnitKind.internal => s

/-- `UnitLibrary::mark_dirty` (src/unitlibrary.rs 179-190): route the name to
its kind's dirty set; `Internal` names are ignored. -/
def mark_dirty (s : LibraryState) (name : UnitName) : LibraryState :=
  LibraryState.setDirty s name.kind (dsInsert (s.dirtyOf name.kind) name)

/-- The panics that `UnitLibrary::rescan` can raise: the six
`.expect("Unable to find dirty <kind> in status list")` calls of phase 3
(src/unitlibrary.rs 272-325) and the
`panic!("Unexpected unit status: ...")` of the load step
(src/unitlibrary.rs line 83). -/
inductive Panic where
  | dirtyJigMissing
  | dirtyTestMissing
  | dirtyScenarioMissing
  | dirtyInterfaceMissing
  | dirtyLoggerMissing
  | dirtyTriggerMissing
  | unexpectedUnitStatus (st : UnitStatus)
deriving DecidableEq

/-- The `process_if!` macro body (src/unitlibrary.rs 19-55) for one kind:
when the event's name has that kind, mark it dirty and parse the file; on a
parse failure broadcast a load-failed status event and record `LoadFailed`;
on success replace the stored description, record the event's status, and
broadcast the kind's new on-disk count. -/
def processIfStep (parse : UnitKind → Path → Except String Desc) (s : LibraryState)
    (name : UnitName) (status : UnitStatus) (tstkind : UnitKind) (path : Path) : LibraryState :=
  if name.kind = tstkind then
    let s := mark_dirty s name
    match parse tstkind path with
    | Except.error e =>
      let s := broadcast s (UnitEvent.status name (UnitStatus.loadFailed e))
      { s with unit_status := alInsert s.unit_status name (UnitStatus.loadFailed e) }
    | Except.ok description =>
      let s := LibraryState.setDescs s tstkind (alInsert (s.descsOf tstkind) name description)
      let s := { s with unit_status := alInsert s.unit_status name status }
      broadcast s (UnitEvent.category tstkind (s.descsOf tstkind).length)
  else s

/-- The per-jig body of rescan phase 1 (src/unitlibrary.rs 212-252): insert
into `dirty` every unit of the store whose description supports the jig. -/
def insertSupporters (store : List (UnitName × Desc)) (jig_name : UnitName)
    (dirty : List UnitName) : List UnitName :=
  store.foldl (fun d p => if p.2.supports_jig jig_name then dsInsert d p.1 else d) dirty

/-- One dirty jig's pass over the five stores in rescan phase 1
(src/unitlibrary.rs 212-252), in source order: tests, scenarios, interfaces,
loggers, triggers. -/
def rescanPhase1Step (s : LibraryState) (jig_name : UnitName) : LibraryState :=
  let s := { s with dirty_tests := insertSupporters s.test_descriptions jig_name s.dirty_tests }
  let s :=
    { s with
      dirty_scenarios := insertSupporters s.scenario_descriptions jig_name s.dirty_scenarios }
  let s :=
    { s with
      dirty_interfaces := insertSupporters s.interface_descriptions jig_name s.dirty_interfaces }
  let s := { s with dirty_loggers := insertSupporters s.logger_descriptions jig_name s.dirty_loggers }
  { s with dirty_triggers := insertSupporters s.trigger_descriptions jig_name s.dirty_triggers }

/-- Rescan phase 1 (src/unitlibrary.rs 211-252): jig-driven invalidation over
every dirty jig. -/
def rescanPhase1 (s : LibraryState) : LibraryState :=
  s.dirty_jigs.foldl rescanPhase1Step s

/-- One dirty test's pass in rescan phase 2 (src/unitlibrary.rs 254-266):
mark dirty every loaded scenario whose composition uses the test
(`scenario.borrow().uses_test(test_name)`). -/
def rescanPhase2Step (s : LibraryState) (test_name : UnitName) : LibraryState :=
  { s with
    dirty_scenarios :=
      s.unit_manager.scenarios.foldl
        (fun d p => if p.2.contains test_name then dsInsert d p.1 else d)
        s.dirty_scenarios }

/-- Rescan phase 2 (src/unitlibrary.rs 254-266): test-driven scenario
invalidation. -/
def rescanPhase2 (s : LibraryState) : LibraryState :=
  s.dirty_tests.foldl rescanPhase2Step s

/-- One dirty-set walk of rescan phase 3 (src/unitlibrary.rs 268-332): each
dirty id's status is fetched with `.expect(...)` — a missing entry panics
with `missing` — and ids whose status is `UnloadStarted` or `LoadFailed`
have their description removed, are unloaded from the manager, and are queued
for removal. -/
def phase3Walk (statuses : List (UnitName × UnitStatus)) (missing : Panic) :
    List UnitName → List (UnitName × Desc) → Manager → List UnitName →
    Except Panic (List (UnitName × Desc) × Manager × List UnitName)
  | [], store, mgr, acc => Except.ok (store, mgr, acc)
  | id :: rest, store, mgr, acc =>
    match alGet statuses id with
    | none => Except.error missing
    | some st =>
      match st with
      | UnitStatus.unloadStarted _ =>
        phase3Walk statuses missing rest (alRemove store id) (mgr.unload id) (acc ++ [id])
      | UnitStatus.loadFailed _ =>
        phase3Walk statuses missing rest (alRemove store id) (mgr.unload id) (acc ++ [id])
      | _ => phase3Walk statuses missing rest store mgr acc

/-- The removal pass at the end of rescan phase 3 (src/unitlibrary.rs
334-345): drop the id from the dirty set of its kind and delete it from the
status table. -/
def phase3RemoveStep (s : LibraryState) (id : UnitName) : LibraryState :=
  let s := LibraryState.setDirty s id.kind (dsRemove (s.dirtyOf id.kind) id)
  { s with unit_status := alRemove s.unit_status id }

/-- Rescan phase 3 (src/unitlibrary.rs 268-346): eviction.  The six dirty
sets are walked in source order (jigs, tests, scenarios, interfaces, loggers,
triggers), then the queued ids are removed from their dirty sets and from the
status table. -/
def rescanPhase3 (s : LibraryState) : Except Panic LibraryState := do
  let (jd, mgr, tr) ←
    phase3Walk s.unit_status Panic.dirtyJigMissing s.dirty_jigs s.jig_descriptions
      s.unit_manager []
  let (td, mgr, tr) ←
    phase3Walk s.unit_status Panic.dirtyTestMissing s.dirty_tests s.test_descriptions mgr tr
  let (sd, mgr, tr) ←
    phase3Walk s.unit_status Panic.dirtyScenarioMissing s.dirty_scenarios
      s.scenario_descriptions mgr tr
  let (ifd, mgr, tr) ←
    phase3Walk s.unit_status Panic.dirtyInterfaceMissing s.dirty_interfaces
      s.interface_descriptions mgr tr
  let (ld, mgr, tr) ←
    phase3Walk s.unit_status Panic.dirtyLoggerMissing s.dirty_loggers s.logger_descriptions
      mgr tr
  let (tgd, mgr, tr) ←
    phase3Walk s.unit_status Panic.dirtyTriggerMissing s.dirty_triggers s.trigger_descriptions
      mgr tr
  let s2 :=
    { s with
      jig_descriptions := jd
      test_descriptions := td
      scenario_descriptions := sd
      interface_descriptions := ifd
      logger_descriptions := ld
      trigger_descriptions := tgd
      unit_manager := mgr }
  pure (tr.foldl phase3RemoveStep s2)

/-- The loop of the `load_units_for_activation!` macro (src/unitlibrary.rs
57-98): for each dirty id, a missing status or missing description queues the
id for removal and continues; otherwise the manager unloads the id and, when
the status is `LoadStarted` or `UpdateStarted`, loads the current
description — a load error records `LoadFailed` in the status table and
queues the id; any other status is the `panic!("Unexpected unit status")`.
The `evs` accumulator collects the events the manager broadcasts from inside
its `load_<kind>` calls (the failure status events of the spec §7); the loop
itself broadcasts nothing. -/
def loadUnitsGo (descriptions : List (UnitName × Desc)) :
    List UnitName → List (UnitName × UnitStatus) → Manager → List UnitEvent →
    List UnitName →
    Except Panic (List (UnitName × UnitStatus) × Manager × List UnitEvent × List UnitName)
  | [], statuses, mgr, evs, acc => Except.ok (statuses, mgr, evs, acc)
  | id :: rest, statuses, mgr, evs, acc =>
    match alGet statuses id with
    | none => loadUnitsGo descriptions rest statuses mgr evs (acc ++ [id])
    | some st =>
      match alGet descriptions id with
      | none => loadUnitsGo descriptions rest statuses mgr evs (acc ++ [id])
      | some description =>
        let mgr2 := mgr.unload id
        match st with
        | UnitStatus.loadStarted _ =>
          (match mgr2.load_unit description with
           | (Except.ok mgr3, evs2) => loadUnitsGo descriptions rest statuses mgr3 (evs ++ evs2) acc
           | (Except.error e, evs2) =>
             loadUnitsGo descriptions rest (alInsert statuses id (UnitStatus.loadFailed e)) mgr2
               (evs ++ evs2) (acc ++ [id]))
        | UnitStatus.updateStarted _ =>
          (match mgr2.load_unit description with
           | (Except.ok mgr3, evs2) => loadUnitsGo descriptions rest statuses mgr3 (evs ++ evs2) acc
           | (Except.error e, evs2) =>
             loadUnitsGo descriptions rest (alInsert statuses id (UnitStatus.loadFailed e)) mgr2
               (evs ++ evs2) (acc ++ [id]))
        | x => Except.error (Panic.unexpectedUnitStatus x)

/-- `load_units_for_activation!` for one kind (src/unitlibrary.rs 57-98):
run the loop, then remove the queued ids from the kind's dirty set.  The
events the manager broadcast during the loop are appended to the log. -/
def load_units_for_activation (s : LibraryState) (k : UnitKind) : Except Panic LibraryState :=
  match loadUnitsGo (s.descsOf k) (s.dirtyOf k) s.unit_status s.unit_manager [] [] with
  | Except.error p => Except.error p
  | Except.ok (statuses, mgr, evs, to_remove) =>
    let s2 :=
      LibraryState.setDirty s k (to_remove.foldl (fun d id => dsRemove d id) (s.dirtyOf k))
    Except.ok
      { s2 with
        unit_status := statuses
        unit_manager := mgr
        broadcasts := s.broadcasts ++ evs }

/-- `load_units!` (src/unitlibrary.rs 112-117): `load_units_for_activation!`
followed by clearing the kind's dirty set. -/
def load_units (s : LibraryState) (k : UnitKind) : Except Panic LibraryState :=
  match load_units_for_activation s k with
  | Except.error p => Except.error p
  | Except.ok s2 => Except.ok (LibraryState.setDirty s2 k [])

/-- `select_and_activate_units!` (src/unitlibrary.rs 100-110): select then
activate every id still in the kind's dirty set, then clear the set. -/
def select_and_activate_units (s : LibraryState) (k : UnitKind) : LibraryState :=
  let mgr := (s.dirtyOf k).foldl (fun m id => Manager.activate (Manager.select m id) id) s.unit_manager
  LibraryState.setDirty { s with unit_manager := mgr } k []

/-- The phases of `UnitLibrary::rescan` between the `RescanStart` and
`RescanFinish` broadcasts (src/unitlibrary.rs 207-382). -/
def rescanCore (s : LibraryState) : Except Panic LibraryState := do
  let s := rescanPhase1 s
  let s := rescanPhase2 s
  let s ← rescanPhase3 s
  let s ← load_units_for_activation s UnitKind.jig
  let s ← load_units_for_activation s UnitKind.interface
  let s ← load_units_for_activation s UnitKind.logger
  let s ← load_units_for_activation s UnitKind.trigger
  let s ← load_units s UnitKind.test
  let s ← load_units s UnitKind.scenario
  let s := select_and_activate_units s UnitKind.jig
  let s := select_and_activate_units s UnitKind.interface
  let s := select_and_activate_units s UnitKind.logger
  let s := select_and_activate_units s UnitKind.trigger
  let s := { s with unit_manager := s.unit_manager.refresh_defaults }
  pure s

/-- `UnitLibrary::rescan` (src/unitlibrary.rs 207-382): broadcast
`RescanStart`, run the phases, broadcast `RescanFinish`; a phase-3 `.expect`
or a load-step `panic!` aborts the whole rescan. -/
def rescan (s : LibraryState) : Except Panic LibraryState :=
  match rescanCore (broadcast s UnitEvent.rescanStart) with
  | Except.error p => Except.error p
  | Except.ok s2 => Except.ok (broadcast s2 UnitEvent.rescanFinish)

/-- `UnitLibrary::process_message` (src/unitlibrary.rs 384-420), with the
per-kind file parsers supplied by `parse` (the filesystem is external).
`LoadStarted` runs `process_if!` for the six kinds in source order;
`UpdateStarted` runs it for Interface, Jig, Logger, Scenario and Trigger —
Test is omitted; `UnloadStarted` records the status and marks the id dirty;
other statuses are ignored; `RescanRequest` triggers a rescan.  The trailing
`self.unit_manager.borrow().process_message(evt)` forward touches none of the
library's tables (the manager owns no library state; `unitmanager.rs` is not
in `src/` and the spec §4.7 gives only the call's signature), so it is the
identity here. -/
def process_message (parse : UnitKind → Path → Except String Desc) (s : LibraryState)
    (evt : UnitEvent) : Except Panic LibraryState :=
  match evt with
  | UnitEvent.status name st =>
    Except.ok
      (match st with
       | UnitStatus.loadStarted path =>
         let s := processIfStep parse s name st UnitKind.interface path
         let s := processIfStep parse s name st UnitKind.logger path
         let s := processIfStep parse s name st UnitKind.jig path
         let s := processIfStep parse s name st UnitKind.scenario path
         let s := processIfStep parse s name st UnitKind.test path
         processIfStep parse s name st UnitKind.trigger path
       | UnitStatus.updateStarted path =>
         let s := processIfStep parse s name st UnitKind.interface path
         let s := processIfStep parse s name st UnitKind.jig path
         let s := processIfStep parse s name st UnitKind.logger path
         let s := processIfStep parse s name st UnitKind.scenario path
         processIfStep parse s name st UnitKind.trigger path
       | UnitStatus.unloadStarted path =>
         mark_dirty { s with unit_status := alInsert s.unit_status name (UnitStatus.unloadStarted path) } name
       | UnitStatus.loadFailed _ => s)
  | UnitEvent.rescanRequest => rescan s
  | _ => Except.ok s

/- ------------------------------------------------------------------
   Concrete states used by witnesses and counterexamples
   ------------------------------------------------------------------ -/

/-- An empty Unit Manager: nothing loaded, selected or active. -/
def exMgr : Manager := ⟨[], [], [], []⟩

/-- The name `main.jig`. -/
def exJigName : UnitName := ⟨UnitKind.jig, "main"⟩

/-- The name `other.jig`. -/
def exOtherJig : UnitName := ⟨UnitKind.jig, "other"⟩

/-- The name `op.interface`. -/
def exIfaceName : UnitName := ⟨UnitKind.interface, "op"⟩

/-- The name `t.test`. -/
def exTestName : UnitName := ⟨UnitKind.test, "t"⟩

/-- A freshly constructed library: every table empty. -/
def exEmptyState : LibraryState :=
  ⟨[], [], [], [], [], [], [], [], [], [], [], [], [], [], exMgr⟩

/-- A library whose dirty-jig set holds an id with no status-table entry. -/
def exMissingStatusState : LibraryState :=
  { exEmptyState with dirty_jigs := [exJigName] }

/-- An interface description listing only a jig that is not loaded. -/
def exIncompatDesc : Desc := ⟨exIfaceName, [exOtherJig], []⟩

/-- A library with one dirty interface whose only listed jig is not loaded:
its phase-5 load fails. -/
def exIncompatState : LibraryState :=
  { exEmptyState with
    dirty_interfaces := [exIfaceName]
    interface_descriptions := [(exIfaceName, exIncompatDesc)]
    unit_status := [(exIfaceName, UnitStatus.loadStarted "op.interface")] }

/-- A test description listing `main.jig` among its jigs. -/
def exSupportsDesc : Desc := ⟨exTestName, [exJigName], []⟩

/-- A library with a dirty jig and a test description that supports it. -/
def exPhase1State : LibraryState :=
  { exEmptyState with
    dirty_jigs := [exJigName]
    test_descriptions := [(exTestName, exSupportsDesc)] }

/-- A library holding a loaded test with a stored description and status. -/
def exTestState : LibraryState :=
  { exEmptyState with
    unit_status := [(exTestName, UnitStatus.loadStarted "t.test")]
    test_descriptions := [(exTestName, ⟨exTestName, [], []⟩)] }

/-- A filesystem model on which every parse fails. -/
def exParseFail : UnitKind → Path → Except String Desc :=
  fun _ _ => Except.error "parse failure"

/-- A unit file with an `[Interface]` section and no directives at all. -/
def exNoExecFile : SystemdUnitFile := ⟨[("Interface", [])]⟩

/-- A unit file whose `[Interface]` section has an `ExecStart` directive with
no value. -/
def exExecNoneFile : SystemdUnitFile := ⟨[("Interface", [⟨"ExecStart", none⟩])]⟩

/-- A unit file whose `[Interface]` section has only a `Name` directive. -/
def exNameOnlyFile : SystemdUnitFile := ⟨[("Interface", [⟨"Name", some "x"⟩])]⟩

/-- What `from_path` yields on `exNameOnlyFile`: note the empty exec
command. -/
def exParsedNameOnly : InterfaceDescription :=
  ⟨exIfaceName, "x", "", [], "", InterfaceFormat.text, none, "d"⟩

/-- A fresh Interface instance (no process handle held). -/
def exIface : Interface :=
  Interface.new ⟨exIfaceName, "", "", [], "/usr/bin/op", InterfaceFormat.text, none, "d"⟩ 5

/-- What the phase-5 load makes of `exIncompatState`: the interface's load
fails, `LoadFailed` is recorded in the status table, the failure status event
is broadcast, and the id leaves the dirty set. -/
def exIncompatAfterLoad : LibraryState :=
  { exIncompatState with
    dirty_interfaces := []
    unit_status := [(exIfaceName, UnitStatus.loadFailed incompatibleJigReason)]
    broadcasts := [UnitEvent.status exIfaceName (UnitStatus.loadFailed incompatibleJigReason)] }

/- ------------------------------------------------------------------
   Lemmas: escape-coded framing
   ------------------------------------------------------------------ -/

theorem replace1_append (pat : Char) (rep xs ys : List Char) :
    replace1 pat rep (xs ++ ys) = replace1 pat rep xs ++ replace1 pat rep ys := by
  induction xs with
  | nil => rfl
  | cons c cs ih => simp [replace1, ih]

theorem cfti_escape_list_cons (c : Char) (s : List Char) :
    cfti_escape_list (c :: s) = escChar c ++ cfti_escape_list s := by
  have h0 : (c :: s) = [c] ++ s := rfl
  simp only [cfti_escape_list, h0, replace1_append]
  congr 1
  by_cases h1 : c = '\\'
  · subst h1; rfl
  by_cases h2 : c = '\t'
  · subst h2; rfl
  by_cases h3 : c = '\n'
  · subst h3; rfl
  by_cases h4 : c = '\r'
  · subst h4; rfl
  simp [replace1, escChar, h1, h2, h3, h4]

theorem cfti_unescape_go_cons (c : Char) (t : List Char) (h : c ≠ '\\') :
    cfti_unescape_go false (c :: t) = c :: cfti_unescape_go false t := by
  by_cases h2 : c = 't'
  · subst h2; simp [cfti_unescape_go]
  by_cases h3 : c = 'r'
  · subst h3; simp [cfti_unescape_go]
  by_cases h4 : c = 'n'
  · subst h4; simp [cfti_unescape_go]
  simp [cfti_unescape_go, h, h2, h3, h4]

theorem cfti_unescape_go_escChar (c : Char) (t : List Char) :
    cfti_unescape_go false (escChar c ++ t) = c :: cfti_unescape_go false t := by
  by_cases h1 : c = '\\'
  · subst h1; simp [escChar, cfti_unescape_go]
  by_cases h2 : c = '\t'
  · subst h2; simp [escChar, cfti_unescape_go]
  by_cases h3 : c = '\n'
  · subst h3; simp [escChar, cfti_unescape_go]
  by_cases h4 : c = '\r'
  · subst h4; simp [escChar, cfti_unescape_go]
  have he : escChar c = [c] := by simp [escChar, h1, h2, h3, h4]
  rw [he]
  exact cfti_unescape_go_cons c t h1

theorem cfti_unescape_go_escape_list (s : List Char) :
    cfti_unescape_go false (cfti_escape_list s) = s := by
  induction s with
  | nil => rfl
  | cons c t ih => rw [cfti_escape_list_cons, cfti_unescape_go_escChar, ih]

/-- C2: for every string — in particular every string built from backslash,
tab, newline, carriage return and arbitrary printable characters —
`cfti_unescape (cfti_escape s) = s`: the inbound unescaping inverts the
outbound escaping. -/
theorem cfti_escape_roundtrip (s : String) : cfti_unescape (cfti_escape s) = s := by
  cases s with
  | mk data => simp [cfti_escape, cfti_unescape, cfti_unescape_go_escape_list]

/- ------------------------------------------------------------------
   Lemmas: interface compatibility and activation
   ------------------------------------------------------------------ -/

theorem is_compatible_loop_ok_iff (m : Manager) (l : List UnitName) :
    is_compatible_loop m l = Except.ok () ↔ ∃ j ∈ l, m.jig_is_loaded j = true := by
  induction l with
  | nil => simp [is_compatible_loop]
  | cons a t ih =>
    by_cases h : m.jig_is_loaded a = true
    · simp [is_compatible_loop, h]
    · simp [is_compatible_loop, h, ih]

theorem except_compat_cases (x : Except UnitIncompatibleReason Unit) :
    x = Except.ok () ∨ x = Except.error UnitIncompatibleReason.incompatibleJig := by
  cases x with
  | ok u => cases u; exact Or.inl rfl
  | error e => cases e; exact Or.inr rfl

/-- C8: `InterfaceDescription::is_compatible` returns `Ok` exactly when the
jig list is empty or at least one listed jig satisfies `jig_is_loaded`, and
in every other case it returns the `IncompatibleJig` error. -/
theorem is_compatible_characterization (d : InterfaceDescription) (m : Manager) :
    (InterfaceDescription.is_compatible d m = Except.ok () ↔
      d.jigs = [] ∨ ∃ j ∈ d.jigs, m.jig_is_loaded j = true) ∧
    (InterfaceDescription.is_compatible d m = Except.ok () ∨
      InterfaceDescription.is_compatible d m =
        Except.error UnitIncompatibleReason.incompatibleJig) := by
  constructor
  · unfold InterfaceDescription.is_compatible
    by_cases h : d.jigs.length = 0
    · have he : d.jigs = [] := List.length_eq_zero.mp h
      simp [h, he]
    · have hne : d.jigs ≠ [] := fun hh => h (by simp [hh])
      simp [h, is_compatible_loop_ok_iff, hne]
  · exact except_compat_cases _

/-- C9: when the spawn of the configured command fails, `Interface::activate`
returns the spawn error, the stored process handle is still `None`, and no
control message (in particular no greeting) was sent. -/
theorem activate_spawn_failure (i : Interface) (e : String) (ch : ControlChannel)
    (h : i.process = none) :
    (Interface.activate i (Except.error e) ch).1 =
      Except.error (UnitActivateError.spawnFailed e) ∧
    (Interface.activate i (Except.error e) ch).2.1.process = none ∧
    (Interface.activate i (Except.error e) ch).2.2 = [] := by
  simp [Interface.activate, h]

/-- C9 witness: a fresh instance whose activation fails at spawn still holds
no process handle. -/
theorem activate_spawn_failure_witness :
    exIface.process = none ∧
    (Interface.activate exIface (Except.error "spawn failed") none).2.1.process = none :=
  ⟨rfl, (activate_spawn_failure exIface "spawn failed" none rfl).2.1⟩

/- ------------------------------------------------------------------
   Lemmas: the stdout reader loop
   ------------------------------------------------------------------ -/

theorem text_read_go_closed (id : UnitName) (lines : List String) :
    ∀ sent, text_read_go id (some 0) sent lines = TextReadResult.panicked sent := by
  induction lines with
  | nil => intro sent; rfl
  | cons line rest ih =>
    intro sent
    cases h : text_read_line line <;>
      simp [text_read_go, h, chanSend, text_read_finish, ih]

theorem text_read_go_open (id : UnitName) (lines : List String) :
    ∀ sent, ∃ pre, text_read_go id none sent lines =
      TextReadResult.returned
        (sent ++ pre ++ [⟨id, ManagerControlMessageContents.childExited⟩]) := by
  induction lines with
  | nil => intro sent; exact ⟨[], by simp [text_read_go, text_read_finish, chanSend]⟩
  | cons line rest ih =>
    intro sent
    cases h : text_read_line line with
    | none =>
      obtain ⟨pre, hp⟩ := ih sent
      exact ⟨pre, by simp [text_read_go, h, hp]⟩
    | some r =>
      obtain ⟨pre, hp⟩ := ih (sent ++ [⟨id, r⟩])
      refine ⟨⟨id, r⟩ :: pre, ?_⟩
      simp only [text_read_go, h, chanSend, hp]
      simp

/-- C3 counterexample: on a closed control channel (every send fails, the
`some 0` channel) the stdout reader does not return silently: the final
`ChildExited` send fails and the `.expect` panics, and no `ChildExited`
message is delivered. -/
theorem text_read_closed_counterexample :
    Interface.text_read exIfaceName (some 0) ["jig"] = TextReadResult.panicked [] := rfl

/-- C3 amended: when the control channel is closed the line loop breaks
silently without delivering anything, but `text_read` then panics on the
`.expect` of the final `ChildExited` send; when the channel stays open,
`text_read` returns and the last message sent is `ChildExited`. -/
theorem text_read_closed_and_open (id : UnitName) (lines : List String) :
    Interface.text_read id (some 0) lines = TextReadResult.panicked [] ∧
    ∃ pre, Interface.text_read id none lines =
      TextReadResult.returned (pre ++ [⟨id, ManagerControlMessageContents.childExited⟩]) := by
  constructor
  · exact text_read_go_closed id lines []
  · obtain ⟨pre, hp⟩ := text_read_go_open id lines []
    exact ⟨pre, by simpa using hp⟩

/- ------------------------------------------------------------------
   Lemmas: ExecStart handling in from_path
   ------------------------------------------------------------------ -/

theorem applyInterfaceDirective_exec_preserved {acc acc2 : InterfaceDescription}
    {dir : SystemdDirective} (h : dir.key ≠ "ExecStart")
    (hok : applyInterfaceDirective acc dir = Except.ok acc2) :
    acc2.exec_start = acc.exec_start := by
  by_cases h1 : dir.key = "Name"
  · simp [applyInterfaceDirective, h1] at hok
    subst hok; rfl
  by_cases h2 : dir.key = "Description"
  · simp [applyInterfaceDirective, h1, h2] at hok
    subst hok; rfl
  by_cases h3 : dir.key = "Jigs"
  · cases hv : dir.value with
    | none =>
      simp [applyInterfaceDirective, h1, h2, h3, hv] at hok
      subst hok; rfl
    | some s =>
      cases hj : UnitName.from_list s "jig" with
      | ok js =>
        simp [applyInterfaceDirective, h1, h2, h3, hv, hj] at hok
        subst hok; rfl
      | error e =>
        simp [applyInterfaceDirective, h1, h2, h3, hv, hj] at hok
  by_cases h4 : dir.key = "WorkingDirectory"
  · cases hv : dir.value with
    | none =>
      simp [applyInterfaceDirective, h1, h2, h3, h4, hv] at hok
      subst hok; rfl
    | some wd =>
      simp [applyInterfaceDirective, h1, h2, h3, h4, hv] at hok
      subst hok; rfl
  by_cases h6 : dir.key = "Format"
  · cases hv : dir.value with
    | none =>
      simp [applyInterfaceDirective, h1, h2, h3, h4, h, h6, hv] at hok
      subst hok; rfl
    | some s =>
      by_cases ht : lowercase s = "text"
      · simp [applyInterfaceDirective, h1, h2, h3, h4, h, h6, hv, ht] at hok
        subst hok; rfl
      by_cases hj2 : lowercase s = "json"
      · simp [applyInterfaceDirective, h1, h2, h3, h4, h, h6, hv, ht, hj2] at hok
        subst hok; rfl
      simp [applyInterfaceDirective, h1, h2, h3, h4, h, h6, hv, ht, hj2] at hok
  simp [applyInterfaceDirective, h1, h2, h3, h4, h, h6] at hok
  subst hok; rfl

theorem applyInterfaceDirectives_exec_preserved :
    ∀ (dirs : List SystemdDirective) (acc acc2 : InterfaceDescription),
      (∀ dv ∈ dirs, dv.key ≠ "ExecStart") →
      applyInterfaceDirectives acc dirs = Except.ok acc2 →
      acc2.exec_start = acc.exec_start := by
  intro dirs
  induction dirs with
  | nil =>
    intro acc acc2 _ hok
    simp only [applyInterfaceDirectives, Except.ok.injEq] at hok
    subst hok; rfl
  | cons dir rest ih =>
    intro acc acc2 hkeys hok
    have hdir : dir.key ≠ "ExecStart" := hkeys dir (by simp)
    unfold applyInterfaceDirectives at hok
    cases ha : applyInterfaceDirective acc dir with
    | error e => rw [ha] at hok; simp at hok
    | ok mid =>
      rw [ha] at hok
      have h1 := applyInterfaceDirective_exec_preserved hdir ha
      have h2 := ih mid acc2 (fun dv hv => hkeys dv (by simp [hv])) hok
      rw [h2, h1]

theorem applyInterfaceDirectives_execstart_none :
    ∀ (dirs : List SystemdDirective) (acc : InterfaceDescription),
      (⟨"ExecStart", none⟩ : SystemdDirective) ∈ dirs →
      ∃ err, applyInterfaceDirectives acc dirs = Except.error err := by
  intro dirs
  induction dirs with
  | nil => intro acc h; simp at h
  | cons dir rest ih =>
    intro acc h
    rcases List.mem_cons.mp h with heq | hmem
    · have hd : applyInterfaceDirective acc dir =
          Except.error (UnitDescriptionError.missingValue "Interface" "ExecStart") := by
        rw [← heq]; rfl
      exact ⟨_, by unfold applyInterfaceDirectives; rw [hd]⟩
    · cases ha : applyInterfaceDirective acc dir with
      | error e => exact ⟨e, by unfold applyInterfaceDirectives; rw [ha]⟩
      | ok mid =>
        obtain ⟨err, herr⟩ := ih mid hmem
        exact ⟨err, by unfold applyInterfaceDirectives; rw [ha]; exact herr⟩

/-- C1 counterexample: a unit file with an `[Interface]` section and no
`ExecStart` directive at all is accepted by `from_path` — the result is a
description with an empty exec command, not a parse error. -/
theorem from_path_no_execstart_ok :
    InterfaceDescription.from_path exIfaceName exNoExecFile "d" =
      Except.ok ⟨exIfaceName, "", "", [], "", InterfaceFormat.text, none, "d"⟩ := rfl

/-- C1 amended: `from_path` fails whenever the `[Interface]` section contains
an `ExecStart` directive with no value (`MissingValue`), and a file whose
`[Interface]` section has no `ExecStart` directive parses — when no other
directive fails — to a description whose exec command is the empty-string
default. -/
theorem from_path_execstart (unit_name : UnitName) (f : SystemdUnitFile) (udir : Path)
    (hf : f.has_category "Interface" = true) :
    ((⟨"ExecStart", none⟩ : SystemdDirective) ∈ f.lookup_by_category "Interface" →
      ∃ err, InterfaceDescription.from_path unit_name f udir = Except.error err) ∧
    ((∀ dv ∈ f.lookup_by_category "Interface", dv.key ≠ "ExecStart") →
      ∀ d, InterfaceDescription.from_path unit_name f udir = Except.ok d →
        d.exec_start = "") := by
  constructor
  · intro hmem
    unfold InterfaceDescription.from_path
    simp only [hf, Bool.not_true, Bool.false_eq_true, if_false]
    exact applyInterfaceDirectives_execstart_none _ _ hmem
  · intro hkeys d hok
    unfold InterfaceDescription.from_path at hok
    simp only [hf, Bool.not_true, Bool.false_eq_true, if_false] at hok
    exact applyInterfaceDirectives_exec_preserved _ _ _ hkeys hok

/-- C1 witness: a file with a valueless `ExecStart` directive is rejected,
and the file holding only a `Name` directive parses with an empty exec
command. -/
theorem from_path_execstart_witness :
    (∃ err, InterfaceDescription.from_path exIfaceName exExecNoneFile "d" =
      Except.error err) ∧
    exParsedNameOnly.exec_start = "" := by
  constructor
  · exact (from_path_execstart exIfaceName exExecNoneFile "d" (by decide)).1 (by decide)
  · exact (from_path_execstart exIfaceName exNameOnlyFile "d" (by decide)).2 (by decide)
      exParsedNameOnly rfl

/- ------------------------------------------------------------------
   Lemmas: projections of the library state updates
   ------------------------------------------------------------------ -/

@[simp] theorem setDirty_broadcasts (s : LibraryState) (k : UnitKind) (d : List UnitName) :
    (LibraryState.setDirty s k d).broadcasts = s.broadcasts := by cases k <;> rfl

@[simp] theorem setDirty_unit_status (s : LibraryState) (k : UnitKind) (d : List UnitName) :
    (LibraryState.setDirty s k d).unit_status = s.unit_status := by cases k <;> rfl

@[simp] theorem setDirty_unit_manager (s : LibraryState) (k : UnitKind) (d : List UnitName) :
    (LibraryState.setDirty s k d).unit_manager = s.unit_manager := by cases k <;> rfl

@[simp] theorem setDirty_descsOf (s : LibraryState) (k : UnitKind) (d : List UnitName)
    (k2 : UnitKind) : (LibraryState.setDirty s k d).descsOf k2 = s.descsOf k2 := by
  cases k <;> cases k2 <;> rfl

theorem setDirty_dirtyOf_self (s : LibraryState) (k : UnitKind) (d : List UnitName)
    (hk : k ≠ UnitKind.internal) : (LibraryState.setDirty s k d).dirtyOf k = d := by
  cases k <;> first | rfl | exact absurd rfl hk

@[simp] theorem broadcast_broadcasts (s : LibraryState) (e : UnitEvent) :
    (broadcast s e).broadcasts = s.broadcasts ++ [e] := rfl

@[simp] theorem broadcast_unit_status (s : LibraryState) (e : UnitEvent) :
    (broadcast s e).unit_status = s.unit_status := rfl

@[simp] theorem broadcast_unit_manager (s : LibraryState) (e : UnitEvent) :
    (broadcast s e).unit_manager = s.unit_manager := rfl

@[simp] theorem broadcast_dirty_jigs (s : LibraryState) (e : UnitEvent) :
    (broadcast s e).dirty_jigs = s.dirty_jigs := rfl

@[simp] theorem broadcast_descsOf (s : LibraryState) (e : UnitEvent) (k : UnitKind) :
    (broadcast s e).descsOf k = s.descsOf k := by cases k <;> rfl

theorem foldl_proj_eq {β γ : Type} (g : LibraryState → γ) (f : LibraryState → β → LibraryState)
    (hf : ∀ s b, g (f s b) = g s) :
    ∀ (l : List β) (s : LibraryState), g (l.foldl f s) = g s := by
  intro l
  induction l with
  | nil => intro s; rfl
  | cons b t ih => intro s; rw [List.foldl_cons, ih, hf]

theorem rescanPhase1_broadcasts (s : LibraryState) :
    (rescanPhase1 s).broadcasts = s.broadcasts :=
  foldl_proj_eq LibraryState.broadcasts rescanPhase1Step (fun _ _ => rfl) _ s

theorem rescanPhase1_unit_status (s : LibraryState) :
    (rescanPhase1 s).unit_status = s.unit_status :=
  foldl_proj_eq LibraryState.unit_status rescanPhase1Step (fun _ _ => rfl) _ s

theorem rescanPhase1_dirty_jigs (s : LibraryState) :
    (rescanPhase1 s).dirty_jigs = s.dirty_jigs :=
  foldl_proj_eq LibraryState.dirty_jigs rescanPhase1Step (fun _ _ => rfl) _ s

theorem rescanPhase2_broadcasts (s : LibraryState) :
    (rescanPhase2 s).broadcasts = s.broadcasts :=
  foldl_proj_eq LibraryState.broadcasts rescanPhase2Step (fun _ _ => rfl) _ s

theorem rescanPhase2_unit_status (s : LibraryState) :
    (rescanPhase2 s).unit_status = s.unit_status :=
  foldl_proj_eq LibraryState.unit_status rescanPhase2Step (fun _ _ => rfl) _ s

theorem rescanPhase2_dirty_jigs (s : LibraryState) :
    (rescanPhase2 s).dirty_jigs = s.dirty_jigs :=
  foldl_proj_eq LibraryState.dirty_jigs rescanPhase2Step (fun _ _ => rfl) _ s

/- ------------------------------------------------------------------
   Lemmas: phase-1 jig-driven invalidation
   ------------------------------------------------------------------ -/

theorem dsInsert_mem_mono {x : UnitName} {d : List UnitName} (y : UnitName) (h : x ∈ d) :
    x ∈ dsInsert d y := by
  unfold dsInsert
  split
  · exact h
  · exact List.mem_append_left _ h

theorem dsInsert_mem_self (d : List UnitName) (y : UnitName) : y ∈ dsInsert d y := by
  unfold dsInsert
  split
  · assumption
  · simp

theorem insertSupporters_mono :
    ∀ (store : List (UnitName × Desc)) (j x : UnitName) (dirty : List UnitName),
      x ∈ dirty → x ∈ insertSupporters store j dirty := by
  intro store j x
  induction store with
  | nil => intro dirty h; exact h
  | cons p rest ih =>
    intro dirty h
    rw [show insertSupporters (p :: rest) j dirty =
        insertSupporters rest j
          (if p.2.supports_jig j then dsInsert dirty p.1 else dirty) from rfl]
    apply ih
    split
    · exact dsInsert_mem_mono _ h
    · exact h

theorem insertSupporters_mem :
    ∀ (store : List (UnitName × Desc)) (j n : UnitName) (d : Desc) (dirty : List UnitName),
      (n, d) ∈ store → d.supports_jig j = true → n ∈ insertSupporters store j dirty := by
  intro store j n d
  induction store with
  | nil => intro dirty hd _; simp at hd
  | cons p rest ih =>
    intro dirty hd hs
    rw [show insertSupporters (p :: rest) j dirty =
        insertSupporters rest j
          (if p.2.supports_jig j then dsInsert dirty p.1 else dirty) from rfl]
    rcases List.mem_cons.mp hd with heq | hmem
    · apply insertSupporters_mono
      rw [← heq]
      simp only [hs, if_true]
      exact dsInsert_mem_self dirty n
    · exact ih _ hmem hs

theorem rescanPhase1Step_descsOf (s : LibraryState) (x : UnitName) (k : UnitKind) :
    (rescanPhase1Step s x).descsOf k = s.descsOf k := by cases k <;> rfl

theorem rescanPhase1Step_dirty_mono (s : LibraryState) (x n : UnitName) (k : UnitKind)
    (h : n ∈ s.dirtyOf k) : n ∈ (rescanPhase1Step s x).dirtyOf k := by
  cases k with
  | jig => exact h
  | internal => exact h
  | test => exact insertSupporters_mono _ _ _ _ h
  | scenario => exact insertSupporters_mono _ _ _ _ h
  | interface => exact insertSupporters_mono _ _ _ _ h
  | logger => exact insertSupporters_mono _ _ _ _ h
  | trigger => exact insertSupporters_mono _ _ _ _ h

theorem rescanPhase1Step_adds (s : LibraryState) (j n : UnitName) (d : Desc) (k : UnitKind)
    (hk : k ≠ UnitKind.jig) (hd : (n, d) ∈ s.descsOf k) (hs : d.supports_jig j = true) :
    n ∈ (rescanPhase1Step s j).dirtyOf k := by
  cases k with
  | jig => exact absurd rfl hk
  | internal => simp [LibraryState.descsOf] at hd
  | test => exact insertSupporters_mem _ _ _ _ _ hd hs
  | scenario => exact insertSupporters_mem _ _ _ _ _ hd hs
  | interface => exact insertSupporters_mem _ _ _ _ _ hd hs
  | logger => exact insertSupporters_mem _ _ _ _ _ hd hs
  | trigger => exact insertSupporters_mem _ _ _ _ _ hd hs

theorem phase1_fold_mono (n : UnitName) (k : UnitKind) :
    ∀ (l : List UnitName) (acc : LibraryState),
      n ∈ acc.dirtyOf k → n ∈ (l.foldl rescanPhase1Step acc).dirtyOf k := by
  intro l
  induction l with
  | nil => intro acc h; exact h
  | cons a t ih =>
    intro acc h
    rw [List.foldl_cons]
    exact ih _ (rescanPhase1Step_dirty_mono _ _ _ _ h)

theorem phase1_fold_mem (j n : UnitName) (d : Desc) (k : UnitKind) (hk : k ≠ UnitKind.jig)
    (hs : d.supports_jig j = true) :
    ∀ (l : List UnitName) (acc : LibraryState),
      j ∈ l → (n, d) ∈ acc.descsOf k → n ∈ (l.foldl rescanPhase1Step acc).dirtyOf k := by
  intro l
  induction l with
  | nil => intro acc hj _; simp at hj
  | cons a t ih =>
    intro acc hj hd
    rw [List.foldl_cons]
    rcases List.mem_cons.mp hj with heq | hmem
    · subst heq
      exact phase1_fold_mono n k t _ (rescanPhase1Step_adds acc j n d k hk hd hs)
    · exact ih _ hmem (by rw [rescanPhase1Step_descsOf]; exact hd)

/-- C6: in phase 1 of `rescan()`, for every jig `j` in the dirty-jig set and
every description `d` stored in any of the interface, logger, trigger,
scenario or test stores, if `d.supports_jig j` then `d`'s id is in the dirty
set of its kind at the end of phase 1, before phase 2 begins. -/
theorem phase1_marks_supporters (s : LibraryState) (j : UnitName) (k : UnitKind)
    (n : UnitName) (d : Desc) (hj : j ∈ s.dirty_jigs) (hk : k ≠ UnitKind.jig)
    (hd : (n, d) ∈ s.descsOf k) (hs : d.supports_jig j = true) :
    n ∈ (rescanPhase1 s).dirtyOf k :=
  phase1_fold_mem j n d k hk hs s.dirty_jigs s hj hd

/-- C6 witness: a dirty `main.jig` and a test whose description lists it —
after phase 1 the test is dirty. -/
theorem phase1_marks_supporters_witness :
    exJigName ∈ exPhase1State.dirty_jigs ∧
    exSupportsDesc.supports_jig exJigName = true ∧
    exTestName ∈ (rescanPhase1 exPhase1State).dirtyOf UnitKind.test :=
  ⟨by decide, by decide,
    phase1_marks_supporters exPhase1State exJigName UnitKind.test exTestName exSupportsDesc
      (by decide) (by decide) (by decide) (by decide)⟩

/- ------------------------------------------------------------------
   Lemmas: process_message
   ------------------------------------------------------------------ -/

/-- C7: an `UpdateStarted` event for a unit of kind Test is not processed:
no dirty mark, no re-parse, no change to any store or to the status table —
the whole library state is returned unchanged, whatever the parse function
would have produced. -/
theorem update_started_test_ignored (parse : UnitKind → Path → Except String Desc)
    (s : LibraryState) (name : UnitName) (path : Path) (h : name.kind = UnitKind.test) :
    process_message parse s (UnitEvent.status name (UnitStatus.updateStarted path)) =
      Except.ok s := by
  simp [process_message, processIfStep, h]

/-- C7 witness: an update event for `t.test` leaves a library holding that
test untouched. -/
theorem update_started_test_ignored_witness :
    exTestName.kind = UnitKind.test ∧
    process_message exParseFail exTestState
      (UnitEvent.status exTestName (UnitStatus.updateStarted "t.test")) =
      Except.ok exTestState :=
  ⟨rfl, update_started_test_ignored exParseFail exTestState exTestName "t.test" rfl⟩

/-- C10 counterexample: an `UpdateStarted` event for a Test whose file fails
to parse (every parse fails here) leaves the status table entry as it was —
it is not replaced with `LoadFailed` — and broadcasts nothing, because the
`UpdateStarted` handler does not process Tests. -/
theorem update_test_parse_failure_unreported :
    process_message exParseFail exTestState
      (UnitEvent.status exTestName (UnitStatus.updateStarted "t2.test")) =
      Except.ok exTestState ∧
    alGet exTestState.unit_status exTestName = some (UnitStatus.loadStarted "t.test") ∧
    exTestState.broadcasts = [] :=
  ⟨rfl, rfl, rfl⟩

/-- C10 amended: for every `LoadStarted` or `UpdateStarted` event that the
handler processes (every non-Internal kind for `LoadStarted`; Interface, Jig,
Logger, Scenario and Trigger for `UpdateStarted` — Test updates are not
processed) whose file fails to parse, every description store is left
unchanged, the status table entry is replaced with `LoadFailed(reason)`, and
a matching failure status event is broadcast. -/
theorem parse_failure_frame (parse : UnitKind → Path → Except String Desc)
    (s : LibraryState) (name : UnitName) (path : Path) (e : String) (st : UnitStatus)
    (hp : parse name.kind path = Except.error e)
    (hst : st = UnitStatus.loadStarted path ∨ st = UnitStatus.updateStarted path)
    (hki : name.kind ≠ UnitKind.internal)
    (hnt : ¬(name.kind = UnitKind.test ∧ st = UnitStatus.updateStarted path)) :
    ∃ s2, process_message parse s (UnitEvent.status name st) = Except.ok s2 ∧
      s2.interface_descriptions = s.interface_descriptions ∧
      s2.jig_descriptions = s.jig_descriptions ∧
      s2.logger_descriptions = s.logger_descriptions ∧
      s2.scenario_descriptions = s.scenario_descriptions ∧
      s2.test_descriptions = s.test_descriptions ∧
      s2.trigger_descriptions = s.trigger_descriptions ∧
      s2.unit_status = alInsert s.unit_status name (UnitStatus.loadFailed e) ∧
      s2.broadcasts = s.broadcasts ++ [UnitEvent.status name (UnitStatus.loadFailed e)] := by
  obtain ⟨k, nid⟩ := name
  rcases hst with h | h <;> subst h <;> cases k
  · refine ⟨_, rfl, ?_, ?_, ?_, ?_, ?_, ?_, ?_, ?_⟩ <;>
      simp [process_message, processIfStep, mark_dirty, LibraryState.setDirty, broadcast, hp]
  · refine ⟨_, rfl, ?_, ?_, ?_, ?_, ?_, ?_, ?_, ?_⟩ <;>
      simp [process_message, processIfStep, mark_dirty, LibraryState.setDirty, broadcast, hp]
  · refine ⟨_, rfl, ?_, ?_, ?_, ?_, ?_, ?_, ?_, ?_⟩ <;>
      simp [process_message, processIfStep, mark_dirty, LibraryState.setDirty, broadcast, hp]
  · refine ⟨_, rfl, ?_, ?_, ?_, ?_, ?_, ?_, ?_, ?_⟩ <;>
      simp [process_message, processIfStep, mark_dirty, LibraryState.setDirty, broadcast, hp]
  · refine ⟨_, rfl, ?_, ?_, ?_, ?_, ?_, ?_, ?_, ?_⟩ <;>
      simp [process_message, processIfStep, mark_dirty, LibraryState.setDirty, broadcast, hp]
  · refine ⟨_, rfl, ?_, ?_, ?_, ?_, ?_, ?_, ?_, ?_⟩ <;>
      simp [process_message, processIfStep, mark_dirty, LibraryState.setDirty, broadcast, hp]
  · exact absurd rfl hki
  · refine ⟨_, rfl, ?_, ?_, ?_, ?_, ?_, ?_, ?_, ?_⟩ <;>
      simp [process_message, processIfStep, mark_dirty, LibraryState.setDirty, broadcast, hp]
  · refine ⟨_, rfl, ?_, ?_, ?_, ?_, ?_, ?_, ?_, ?_⟩ <;>
      simp [process_message, processIfStep, mark_dirty, LibraryState.setDirty, broadcast, hp]
  · refine ⟨_, rfl, ?_, ?_, ?_, ?_, ?_, ?_, ?_, ?_⟩ <;>
      simp [process_message, processIfStep, mark_dirty, LibraryState.setDirty, broadcast, hp]
  · refine ⟨_, rfl, ?_, ?_, ?_, ?_, ?_, ?_, ?_, ?_⟩ <;>
      simp [process_message, processIfStep, mark_dirty, LibraryState.setDirty, broadcast, hp]
  · exact absurd ⟨rfl, rfl⟩ hnt
  · refine ⟨_, rfl, ?_, ?_, ?_, ?_, ?_, ?_, ?_, ?_⟩ <;>
      simp [process_message, processIfStep, mark_dirty, LibraryState.setDirty, broadcast, hp]
  · exact absurd rfl hki

/-- C10 witness: a `LoadStarted` event for `op.interface` whose parse fails
records `LoadFailed` and broadcasts the failure, leaving the stores alone. -/
theorem parse_failure_frame_witness :
    exParseFail UnitKind.interface "op.interface" = Except.error "parse failure" ∧
    ∃ s2, process_message exParseFail exEmptyState
        (UnitEvent.status exIfaceName (UnitStatus.loadStarted "op.interface")) =
        Except.ok s2 ∧
      s2.interface_descriptions = exEmptyState.interface_descriptions ∧
      s2.jig_descriptions = exEmptyState.jig_descriptions ∧
      s2.logger_descriptions = exEmptyState.logger_descriptions ∧
      s2.scenario_descriptions = exEmptyState.scenario_descriptions ∧
      s2.test_descriptions = exEmptyState.test_descriptions ∧
      s2.trigger_descriptions = exEmptyState.trigger_descriptions ∧
      s2.unit_status = alInsert exEmptyState.unit_status exIfaceName
        (UnitStatus.loadFailed "parse failure") ∧
      s2.broadcasts = exEmptyState.broadcasts ++
        [UnitEvent.status exIfaceName (UnitStatus.loadFailed "parse failure")] :=
  ⟨rfl,
    parse_failure_frame exParseFail exEmptyState exIfaceName "op.interface" "parse failure"
      (UnitStatus.loadStarted "op.interface") rfl (Or.inl rfl) (by decide)
      (by intro hc; exact absurd hc.1 (by decide))⟩

/- ------------------------------------------------------------------
   Lemmas: association lists and dirty-set removal
   ------------------------------------------------------------------ -/

theorem find?_filter_ne_key {α : Type} (a k : UnitName) (h : k ≠ a) :
    ∀ (m : List (UnitName × α)),
      (m.filter (fun p => !(p.1 == a))).find? (fun p => p.1 == k) =
        m.find? (fun p => p.1 == k) := by
  intro m
  induction m with
  | nil => rfl
  | cons q t ih =>
    by_cases hqa : q.1 = a
    · have hqk : (q.1 == k) = false := by
        rw [hqa]; exact beq_eq_false_iff_ne.mpr (Ne.symm h)
      have hqa2 : (q.1 == a) = true := by rw [hqa]; exact beq_self_eq_true a
      simp [List.filter_cons, List.find?_cons, hqa2, hqk, ih]
    · have hqa2 : (q.1 == a) = false := beq_eq_false_iff_ne.mpr hqa
      by_cases hqk : q.1 = k
      · have hqk2 : (q.1 == k) = true := by rw [hqk]; exact beq_self_eq_true k
        simp [List.filter_cons, List.find?_cons, hqa2, hqk2]
      · have hqk2 : (q.1 == k) = false := beq_eq_false_iff_ne.mpr hqk
        simp [List.filter_cons, List.find?_cons, hqa2, hqk2, ih]

theorem alGet_alInsert_ne {α : Type} (m : List (UnitName × α)) (a k : UnitName) (v : α)
    (h : k ≠ a) : alGet (alInsert m a v) k = alGet m k := by
  unfold alGet alInsert
  rw [List.find?_append, find?_filter_ne_key a k h m]
  have hak : (((a, v) : UnitName × α).1 == k) = false :=
    beq_eq_false_iff_ne.mpr (Ne.symm h)
  simp [List.find?_cons, hak]

theorem alGet_alInsert_self {α : Type} (m : List (UnitName × α)) (a : UnitName) (v : α) :
    alGet (alInsert m a v) a = some v := by
  unfold alGet alInsert
  rw [List.find?_append]
  have h1 : (m.filter (fun p => !(p.1 == a))).find? (fun p => p.1 == a) = none := by
    rw [List.find?_eq_none]
    intro x hx
    have h2 := (List.mem_filter.mp hx).2
    simp only [Bool.not_eq_true'] at h2
    simp [h2]
  rw [h1]
  simp [List.find?_cons, beq_self_eq_true]

theorem alGet_mem {α : Type} (m : List (UnitName × α)) (k : UnitName) (v : α)
    (h : alGet m k = some v) : (k, v) ∈ m := by
  unfold alGet at h
  cases hf : m.find? (fun p => p.1 == k) with
  | none => rw [hf] at h; simp at h
  | some q =>
    rw [hf] at h
    simp only [Option.map_some', Option.some.injEq] at h
    have hq1 : q.1 = k := by simpa using List.find?_some hf
    have hmem := List.mem_of_find?_eq_some hf
    have hq : (k, v) = q := by
      cases q with
      | mk q1 q2 =>
        simp only at hq1 h
        rw [hq1, h]
    rw [hq]
    exact hmem

theorem foldl_dsRemove_preserve (l : List UnitName) :
    ∀ (d : List UnitName) (id : UnitName), id ∉ d →
      id ∉ l.foldl (fun acc x => dsRemove acc x) d := by
  induction l with
  | nil => intro d id h; exact h
  | cons a t ih =>
    intro d id h
    rw [List.foldl_cons]
    apply ih
    intro hc
    simp only [dsRemove] at hc
    exact h (List.mem_filter.mp hc).1

theorem foldl_dsRemove_not_mem (l : List UnitName) :
    ∀ (d : List UnitName) (id : UnitName), id ∈ l →
      id ∉ l.foldl (fun acc x => dsRemove acc x) d := by
  induction l with
  | nil => intro d id h; simp at h
  | cons a t ih =>
    intro d id h
    rw [List.foldl_cons]
    by_cases hai : id = a
    · subst hai
      apply foldl_dsRemove_preserve
      intro hc
      simp only [dsRemove] at hc
      have h2 := (List.mem_filter.mp hc).2
      simp at h2
    · rcases List.mem_cons.mp h with heq | hm
      · exact absurd heq hai
      · exact ih _ _ hm

/- ------------------------------------------------------------------
   Lemmas: the loading loop of phases 4-9
   ------------------------------------------------------------------ -/

theorem loadUnitsGo_cons_eq (descriptions : List (UnitName × Desc)) (id : UnitName)
    (rest : List UnitName) (statuses : List (UnitName × UnitStatus)) (mgr : Manager)
    (evs : List UnitEvent) (acc : List UnitName) :
    loadUnitsGo descriptions (id :: rest) statuses mgr evs acc =
      (match alGet statuses id with
       | none => loadUnitsGo descriptions rest statuses mgr evs (acc ++ [id])
       | some st =>
         match alGet descriptions id with
         | none => loadUnitsGo descriptions rest statuses mgr evs (acc ++ [id])
         | some description =>
           match st with
           | UnitStatus.loadStarted _ =>
             (match (Manager.unload mgr id).load_unit description with
              | (Except.ok mgr3, evs2) =>
                loadUnitsGo descriptions rest statuses mgr3 (evs ++ evs2) acc
              | (Except.error e, evs2) =>
                loadUnitsGo descriptions rest (alInsert statuses id (UnitStatus.loadFailed e))
                  (Manager.unload mgr id) (evs ++ evs2) (acc ++ [id]))
           | UnitStatus.updateStarted _ =>
             (match (Manager.unload mgr id).load_unit description with
              | (Except.ok mgr3, evs2) =>
                loadUnitsGo descriptions rest statuses mgr3 (evs ++ evs2) acc
              | (Except.error e, evs2) =>
                loadUnitsGo descriptions rest (alInsert statuses id (UnitStatus.loadFailed e))
                  (Manager.unload mgr id) (evs ++ evs2) (acc ++ [id]))
           | x => Except.error (Panic.unexpectedUnitStatus x)) := rfl

theorem loadUnitsGo_mono (descs : List (UnitName × Desc)) :
    ∀ (dirty : List UnitName) (statuses : List (UnitName × UnitStatus)) (mgr : Manager)
      (evs : List UnitEvent) (acc : List UnitName)
      (res : List (UnitName × UnitStatus) × Manager × List UnitEvent × List UnitName),
      loadUnitsGo descs dirty statuses mgr evs acc = Except.ok res →
      (∀ x, x ∈ acc → x ∈ res.2.2.2) ∧ (∀ y, y ∈ evs → y ∈ res.2.2.1) := by
  intro dirty
  induction dirty with
  | nil =>
    intro statuses mgr evs acc res h
    simp only [loadUnitsGo, Except.ok.injEq] at h
    subst h
    exact ⟨fun x hx => hx, fun y hy => hy⟩
  | cons a rest ih =>
    intro statuses mgr evs acc res h
    rw [loadUnitsGo_cons_eq] at h
    cases hs2 : alGet statuses a with
    | none =>
      simp only [hs2] at h
      obtain ⟨ha, he⟩ := ih _ _ _ _ _ h
      exact ⟨fun x hx => ha x (List.mem_append_left _ hx), he⟩
    | some st =>
      cases hd2 : alGet descs a with
      | none =>
        simp only [hs2, hd2] at h
        obtain ⟨ha, he⟩ := ih _ _ _ _ _ h
        exact ⟨fun x hx => ha x (List.mem_append_left _ hx), he⟩
      | some d =>
        simp only [hs2, hd2] at h
        cases st with
        | loadStarted p =>
          rcases hlv : Manager.load_unit (Manager.unload mgr a) d with ⟨r1, evs2⟩
          cases r1 with
          | ok mgr3 =>
            simp only [hlv] at h
            obtain ⟨ha, he⟩ := ih _ _ _ _ _ h
            exact ⟨ha, fun y hy => he y (List.mem_append_left _ hy)⟩
          | error e2 =>
            simp only [hlv] at h
            obtain ⟨ha, he⟩ := ih _ _ _ _ _ h
            exact ⟨fun x hx => ha x (List.mem_append_left _ hx),
              fun y hy => he y (List.mem_append_left _ hy)⟩
        | updateStarted p =>
          rcases hlv : Manager.load_unit (Manager.unload mgr a) d with ⟨r1, evs2⟩
          cases r1 with
          | ok mgr3 =>
            simp only [hlv] at h
            obtain ⟨ha, he⟩ := ih _ _ _ _ _ h
            exact ⟨ha, fun y hy => he y (List.mem_append_left _ hy)⟩
          | error e2 =>
            simp only [hlv] at h
            obtain ⟨ha, he⟩ := ih _ _ _ _ _ h
            exact ⟨fun x hx => ha x (List.mem_append_left _ hx),
              fun y hy => he y (List.mem_append_left _ hy)⟩
        | unloadStarted p => simp at h
        | loadFailed r => simp at h

theorem loadUnitsGo_mem_remove (descs : List (UnitName × Desc)) (id : UnitName) :
    ∀ (dirty : List UnitName) (statuses : List (UnitName × UnitStatus)) (mgr : Manager)
      (evs : List UnitEvent) (acc : List UnitName)
      (res : List (UnitName × UnitStatus) × Manager × List UnitEvent × List UnitName),
      loadUnitsGo descs dirty statuses mgr evs acc = Except.ok res →
      id ∈ dirty → (alGet statuses id = none ∨ alGet descs id = none) →
      id ∈ res.2.2.2 := by
  intro dirty
  induction dirty with
  | nil => intro _ _ _ _ _ _ hid _; simp at hid
  | cons a rest ih =>
    intro statuses mgr evs acc res h hid hvan
    rw [loadUnitsGo_cons_eq] at h
    by_cases hai : a = id
    · subst hai
      rcases hvan with hs | hd
      · simp only [hs] at h
        exact (loadUnitsGo_mono descs rest _ _ _ _ _ h).1 a (by simp)
      · cases hs2 : alGet statuses a with
        | none =>
          simp only [hs2] at h
          exact (loadUnitsGo_mono descs rest _ _ _ _ _ h).1 a (by simp)
        | some st =>
          simp only [hs2, hd] at h
          exact (loadUnitsGo_mono descs rest _ _ _ _ _ h).1 a (by simp)
    · have hidr : id ∈ rest := by
        rcases List.mem_cons.mp hid with heq | hm
        · exact absurd heq.symm hai
        · exact hm
      cases hs2 : alGet statuses a with
      | none =>
        simp only [hs2] at h
        exact ih _ _ _ _ _ h hidr hvan
      | some st =>
        cases hd2 : alGet descs a with
        | none =>
          simp only [hs2, hd2] at h
          exact ih _ _ _ _ _ h hidr hvan
        | some d =>
          simp only [hs2, hd2] at h
          cases st with
          | loadStarted p =>
            rcases hlv : Manager.load_unit (Manager.unload mgr a) d with ⟨r1, evs2⟩
            cases r1 with
            | ok mgr3 =>
              simp only [hlv] at h
              exact ih _ _ _ _ _ h hidr hvan
            | error e2 =>
              simp only [hlv] at h
              refine ih _ _ _ _ _ h hidr ?_
              rcases hvan with hs | hd
              · exact Or.inl (by rw [alGet_alInsert_ne _ _ _ _ (Ne.symm hai)]; exact hs)
              · exact Or.inr hd
          | updateStarted p =>
            rcases hlv : Manager.load_unit (Manager.unload mgr a) d with ⟨r1, evs2⟩
            cases r1 with
            | ok mgr3 =>
              simp only [hlv] at h
              exact ih _ _ _ _ _ h hidr hvan
            | error e2 =>
              simp only [hlv] at h
              refine ih _ _ _ _ _ h hidr ?_
              rcases hvan with hs | hd
              · exact Or.inl (by rw [alGet_alInsert_ne _ _ _ _ (Ne.symm hai)]; exact hs)
              · exact Or.inr hd
          | unloadStarted p => simp at h
          | loadFailed r => simp at h

/- ------------------------------------------------------------------
   Lemmas: vanished ids during a rescan
   ------------------------------------------------------------------ -/

@[simp] theorem broadcast_dirtyOf (s : LibraryState) (e : UnitEvent) (k : UnitKind) :
    (broadcast s e).dirtyOf k = s.dirtyOf k := by cases k <;> rfl

theorem rescanPhase1_dirty_mono (s : LibraryState) (n : UnitName) (k : UnitKind)
    (h : n ∈ s.dirtyOf k) : n ∈ (rescanPhase1 s).dirtyOf k :=
  phase1_fold_mono n k s.dirty_jigs s h

theorem foldl_scen_mono (x : UnitName) :
    ∀ (l : List (UnitName × List UnitName)) (d : List UnitName) (n : UnitName),
      n ∈ d → n ∈ l.foldl (fun acc p => if p.2.contains x then dsInsert acc p.1 else acc) d := by
  intro l
  induction l with
  | nil => intro d n h; exact h
  | cons p t ih =>
    intro d n h
    rw [List.foldl_cons]
    apply ih
    split
    · exact dsInsert_mem_mono _ h
    · exact h

theorem rescanPhase2Step_dirty_mono (s : LibraryState) (x n : UnitName) (k : UnitKind)
    (h : n ∈ s.dirtyOf k) : n ∈ (rescanPhase2Step s x).dirtyOf k := by
  cases k with
  | jig => exact h
  | interface => exact h
  | logger => exact h
  | trigger => exact h
  | test => exact h
  | internal => exact h
  | scenario => exact foldl_scen_mono x _ _ _ h

theorem phase2_fold_mono (n : UnitName) (k : UnitKind) :
    ∀ (l : List UnitName) (acc : LibraryState),
      n ∈ acc.dirtyOf k → n ∈ (l.foldl rescanPhase2Step acc).dirtyOf k := by
  intro l
  induction l with
  | nil => intro acc h; exact h
  | cons a t ih =>
    intro acc h
    rw [List.foldl_cons]
    exact ih _ (rescanPhase2Step_dirty_mono _ _ _ _ h)

theorem rescanPhase2_dirty_mono (s : LibraryState) (n : UnitName) (k : UnitKind)
    (h : n ∈ s.dirtyOf k) : n ∈ (rescanPhase2 s).dirtyOf k :=
  phase2_fold_mono n k s.dirty_tests s h

theorem except_bind_ok_eq {ε α β : Type} (a : α) (f : α → Except ε β) :
    (Except.ok a >>= f : Except ε β) = f a := rfl

theorem phase3Walk_missing (statuses : List (UnitName × UnitStatus)) (missing : Panic) :
    ∀ (dirty : List UnitName) (store : List (UnitName × Desc)) (mgr : Manager)
      (acc : List UnitName) (j : UnitName),
      j ∈ dirty → alGet statuses j = none →
      phase3Walk statuses missing dirty store mgr acc = Except.error missing := by
  intro dirty
  induction dirty with
  | nil => intro _ _ _ j hj _; simp at hj
  | cons a rest ih =>
    intro store mgr acc j hj hnone
    cases ha : alGet statuses a with
    | none => simp [phase3Walk, ha]
    | some st =>
      have hjr : j ∈ rest := by
        rcases List.mem_cons.mp hj with heq | hm
        · subst heq; rw [ha] at hnone; simp at hnone
        · exact hm
      cases st <;> simp [phase3Walk, ha] <;> exact ih _ _ _ j hjr hnone

theorem phase3Walk_error_eq (statuses : List (UnitName × UnitStatus)) (missing : Panic) :
    ∀ (dirty : List UnitName) (store : List (UnitName × Desc)) (mgr : Manager)
      (acc : List UnitName) (p : Panic),
      phase3Walk statuses missing dirty store mgr acc = Except.error p → p = missing := by
  intro dirty
  induction dirty with
  | nil => intro store mgr acc p h; simp [phase3Walk] at h
  | cons a rest ih =>
    intro store mgr acc p h
    cases ha : alGet statuses a with
    | none => simp [phase3Walk, ha] at h; exact h.symm
    | some st => cases st <;> simp [phase3Walk, ha] at h <;> exact ih _ _ _ _ h

theorem rescanPhase3_missing (s : LibraryState) (id : UnitName) (k : UnitKind)
    (hk : k ≠ UnitKind.internal) (hid : id ∈ s.dirtyOf k)
    (hnone : alGet s.unit_status id = none) :
    ∃ p, rescanPhase3 s = Except.error p ∧
      p ∈ [Panic.dirtyJigMissing, Panic.dirtyTestMissing, Panic.dirtyScenarioMissing,
        Panic.dirtyInterfaceMissing, Panic.dirtyLoggerMissing, Panic.dirtyTriggerMissing] := by
  cases k with
  | internal => exact absurd rfl hk
  | jig =>
    have hd : id ∈ s.dirty_jigs := hid
    refine ⟨Panic.dirtyJigMissing, ?_, by simp⟩
    simp only [rescanPhase3]
    rw [phase3Walk_missing _ _ _ _ _ _ id hd hnone]
    rfl
  | test =>
    cases hw1 : phase3Walk s.unit_status Panic.dirtyJigMissing s.dirty_jigs
        s.jig_descriptions s.unit_manager [] with
    | error p =>
      obtain rfl := phase3Walk_error_eq _ _ _ _ _ _ _ hw1
      refine ⟨Panic.dirtyJigMissing, ?_, by simp⟩
      simp only [rescanPhase3]
      rw [hw1]; rfl
    | ok v =>
      obtain ⟨jd, mgr1, tr1⟩ := v
      have hd : id ∈ s.dirty_tests := hid
      refine ⟨Panic.dirtyTestMissing, ?_, by simp⟩
      simp only [rescanPhase3, hw1, except_bind_ok_eq]
      rw [phase3Walk_missing _ _ _ _ _ _ id hd hnone]
      rfl
  | scenario =>
    cases hw1 : phase3Walk s.unit_status Panic.dirtyJigMissing s.dirty_jigs
        s.jig_descriptions s.unit_manager [] with
    | error p =>
      obtain rfl := phase3Walk_error_eq _ _ _ _ _ _ _ hw1
      refine ⟨Panic.dirtyJigMissing, ?_, by simp⟩
      simp only [rescanPhase3]
      rw [hw1]; rfl
    | ok v =>
      obtain ⟨jd, mgr1, tr1⟩ := v
      cases hw2 : phase3Walk s.unit_status Panic.dirtyTestMissing s.dirty_tests
          s.test_descriptions mgr1 tr1 with
      | error p =>
        obtain rfl := phase3Walk_error_eq _ _ _ _ _ _ _ hw2
        refine ⟨Panic.dirtyTestMissing, ?_, by simp⟩
        simp only [rescanPhase3, hw1, except_bind_ok_eq]
        rw [hw2]; rfl
      | ok v2 =>
        obtain ⟨td, mgr2, tr2⟩ := v2
        have hd : id ∈ s.dirty_scenarios := hid
        refine ⟨Panic.dirtyScenarioMissing, ?_, by simp⟩
        simp only [rescanPhase3, hw1, hw2, except_bind_ok_eq]
        rw [phase3Walk_missing _ _ _ _ _ _ id hd hnone]
        rfl
  | interface =>
    cases hw1 : phase3Walk s.unit_status Panic.dirtyJigMissing s.dirty_jigs
        s.jig_descriptions s.unit_manager [] with
    | error p =>
      obtain rfl := phase3Walk_error_eq _ _ _ _ _ _ _ hw1
      refine ⟨Panic.dirtyJigMissing, ?_, by simp⟩
      simp only [rescanPhase3]
      rw [hw1]; rfl
    | ok v =>
      obtain ⟨jd, mgr1, tr1⟩ := v
      cases hw2 : phase3Walk s.unit_status Panic.dirtyTestMissing s.dirty_tests
          s.test_descriptions mgr1 tr1 with
      | error p =>
        obtain rfl := phase3Walk_error_eq _ _ _ _ _ _ _ hw2
        refine ⟨Panic.dirtyTestMissing, ?_, by simp⟩
        simp only [rescanPhase3, hw1, except_bind_ok_eq]
        rw [hw2]; rfl
      | ok v2 =>
        obtain ⟨td, mgr2, tr2⟩ := v2
        cases hw3 : phase3Walk s.unit_status Panic.dirtyScenarioMissing s.dirty_scenarios
            s.scenario_descriptions mgr2 tr2 with
        | error p =>
          obtain rfl := phase3Walk_error_eq _ _ _ _ _ _ _ hw3
          refine ⟨Panic.dirtyScenarioMissing, ?_, by simp⟩
          simp only [rescanPhase3, hw1, hw2, except_bind_ok_eq]
          rw [hw3]; rfl
        | ok v3 =>
          obtain ⟨sd, mgr3, tr3⟩ := v3
          have hd : id ∈ s.dirty_interfaces := hid
          refine ⟨Panic.dirtyInterfaceMissing, ?_, by simp⟩
          simp only [rescanPhase3, hw1, hw2, hw3, except_bind_ok_eq]
          rw [phase3Walk_missing _ _ _ _ _ _ id hd hnone]
          rfl
  | logger =>
    cases hw1 : phase3Walk s.unit_status Panic.dirtyJigMissing s.dirty_jigs
        s.jig_descriptions s.unit_manager [] with
    | error p =>
      obtain rfl := phase3Walk_error_eq _ _ _ _ _ _ _ hw1
      refine ⟨Panic.dirtyJigMissing, ?_, by simp⟩
      simp only [rescanPhase3]
      rw [hw1]; rfl
    | ok v =>
      obtain ⟨jd, mgr1, tr1⟩ := v
      cases hw2 : phase3Walk s.unit_status Panic.dirtyTestMissing s.dirty_tests
          s.test_descriptions mgr1 tr1 with
      | error p =>
        obtain rfl := phase3Walk_error_eq _ _ _ _ _ _ _ hw2
        refine ⟨Panic.dirtyTestMissing, ?_, by simp⟩
        simp only [rescanPhase3, hw1, except_bind_ok_eq]
        rw [hw2]; rfl
      | ok v2 =>
        obtain ⟨td, mgr2, tr2⟩ := v2
        cases hw3 : phase3Walk s.unit_status Panic.dirtyScenarioMissing s.dirty_scenarios
            s.scenario_descriptions mgr2 tr2 with
        | error p =>
          obtain rfl := phase3Walk_error_eq _ _ _ _ _ _ _ hw3
          refine ⟨Panic.dirtyScenarioMissing, ?_, by simp⟩
          simp only [rescanPhase3, hw1, hw2, except_bind_ok_eq]
          rw [hw3]; rfl
        | ok v3 =>
          obtain ⟨sd, mgr3, tr3⟩ := v3
          cases hw4 : phase3Walk s.unit_status Panic.dirtyInterfaceMissing s.dirty_interfaces
              s.interface_descriptions mgr3 tr3 with
          | error p =>
            obtain rfl := phase3Walk_error_eq _ _ _ _ _ _ _ hw4
            refine ⟨Panic.dirtyInterfaceMissing, ?_, by simp⟩
            simp only [rescanPhase3, hw1, hw2, hw3, except_bind_ok_eq]
            rw [hw4]; rfl
          | ok v4 =>
            obtain ⟨ifd, mgr4, tr4⟩ := v4
            have hd : id ∈ s.dirty_loggers := hid
            refine ⟨Panic.dirtyLoggerMissing, ?_, by simp⟩
            simp only [rescanPhase3, hw1, hw2, hw3, hw4, except_bind_ok_eq]
            rw [phase3Walk_missing _ _ _ _ _ _ id hd hnone]
            rfl
  | trigger =>
    cases hw1 : phase3Walk s.unit_status Panic.dirtyJigMissing s.dirty_jigs
        s.jig_descriptions s.unit_manager [] with
    | error p =>
      obtain rfl := phase3Walk_error_eq _ _ _ _ _ _ _ hw1
      refine ⟨Panic.dirtyJigMissing, ?_, by simp⟩
      simp only [rescanPhase3]
      rw [hw1]; rfl
    | ok v =>
      obtain ⟨jd, mgr1, tr1⟩ := v
      cases hw2 : phase3Walk s.unit_status Panic.dirtyTestMissing s.dirty_tests
          s.test_descriptions mgr1 tr1 with
      | error p =>
        obtain rfl := phase3Walk_error_eq _ _ _ _ _ _ _ hw2
        refine ⟨Panic.dirtyTestMissing, ?_, by simp⟩
        simp only [rescanPhase3, hw1, except_bind_ok_eq]
        rw [hw2]; rfl
      | ok v2 =>
        obtain ⟨td, mgr2, tr2⟩ := v2
        cases hw3 : phase3Walk s.unit_status Panic.dirtyScenarioMissing s.dirty_scenarios
            s.scenario_descriptions mgr2 tr2 with
        | error p =>
          obtain rfl := phase3Walk_error_eq _ _ _ _ _ _ _ hw3
          refine ⟨Panic.dirtyScenarioMissing, ?_, by simp⟩
          simp only [rescanPhase3, hw1, hw2, except_bind_ok_eq]
          rw [hw3]; rfl
        | ok v3 =>
          obtain ⟨sd, mgr3, tr3⟩ := v3
          cases hw4 : phase3Walk s.unit_status Panic.dirtyInterfaceMissing s.dirty_interfaces
              s.interface_descriptions mgr3 tr3 with
          | error p =>
            obtain rfl := phase3Walk_error_eq _ _ _ _ _ _ _ hw4
            refine ⟨Panic.dirtyInterfaceMissing, ?_, by simp⟩
            simp only [rescanPhase3, hw1, hw2, hw3, except_bind_ok_eq]
            rw [hw4]; rfl
          | ok v4 =>
            obtain ⟨ifd, mgr4, tr4⟩ := v4
            cases hw5 : phase3Walk s.unit_status Panic.dirtyLoggerMissing s.dirty_loggers
                s.logger_descriptions mgr4 tr4 with
            | error p =>
              obtain rfl := phase3Walk_error_eq _ _ _ _ _ _ _ hw5
              refine ⟨Panic.dirtyLoggerMissing, ?_, by simp⟩
              simp only [rescanPhase3, hw1, hw2, hw3, hw4, except_bind_ok_eq]
              rw [hw5]; rfl
            | ok v5 =>
              obtain ⟨ld, mgr5, tr5⟩ := v5
              have hd : id ∈ s.dirty_triggers := hid
              refine ⟨Panic.dirtyTriggerMissing, ?_, by simp⟩
              simp only [rescanPhase3, hw1, hw2, hw3, hw4, hw5, except_bind_ok_eq]
              rw [phase3Walk_missing _ _ _ _ _ _ id hd hnone]
              rfl

/-- C4: a dirty id whose status-table entry (or stored description) has
vanished is not always dropped quietly.  (1) In the phase-3 eviction walk a
dirty id of any non-Internal kind with no status-table entry makes the whole
rescan abort with the kind's `.expect` panic, whatever else is dirty.
(2) In the load loops of phases 4-9 the per-id step for a vanished id (status
or description missing) merely queues the id for removal and moves on to the
remaining dirty ids.  (3) Consequently, after a successful
`load_units_for_activation!` of the id's kind the id is no longer in that
kind's dirty set, with all other dirty ids arbitrary. -/
theorem rescan_vanished_ids (s : LibraryState) (k : UnitKind) (id : UnitName) :
    (id ∈ s.dirtyOf k → k ≠ UnitKind.internal → alGet s.unit_status id = none →
      ∃ p, rescan s = Except.error p ∧
        p ∈ [Panic.dirtyJigMissing, Panic.dirtyTestMissing, Panic.dirtyScenarioMissing,
          Panic.dirtyInterfaceMissing, Panic.dirtyLoggerMissing, Panic.dirtyTriggerMissing]) ∧
    (∀ (descs : List (UnitName × Desc)) (rest : List UnitName)
        (statuses : List (UnitName × UnitStatus)) (mgr : Manager)
        (evs : List UnitEvent) (acc : List UnitName),
      (alGet statuses id = none ∨ alGet descs id = none) →
      loadUnitsGo descs (id :: rest) statuses mgr evs acc =
        loadUnitsGo descs rest statuses mgr evs (acc ++ [id])) ∧
    (id ∈ s.dirtyOf k →
      (alGet s.unit_status id = none ∨ alGet (s.descsOf k) id = none) →
      ∀ s2, load_units_for_activation s k = Except.ok s2 → id ∉ s2.dirtyOf k) := by
  refine ⟨?_, ?_, ?_⟩
  · intro hid hk hnone
    have hid1 : id ∈ (rescanPhase2 (rescanPhase1 (broadcast s UnitEvent.rescanStart))).dirtyOf k :=
      rescanPhase2_dirty_mono _ _ _ (rescanPhase1_dirty_mono _ _ _ (by
        rw [broadcast_dirtyOf]; exact hid))
    have hnone1 :
        alGet (rescanPhase2 (rescanPhase1 (broadcast s UnitEvent.rescanStart))).unit_status id =
          none := by
      rw [rescanPhase2_unit_status, rescanPhase1_unit_status, broadcast_unit_status]
      exact hnone
    obtain ⟨p, hp3, hpm⟩ :=
      rescanPhase3_missing (rescanPhase2 (rescanPhase1 (broadcast s UnitEvent.rescanStart)))
        id k hk hid1 hnone1
    refine ⟨p, ?_, hpm⟩
    simp only [rescan, rescanCore]
    rw [hp3]
    rfl
  · intro descs rest statuses mgr evs acc hvan
    rw [loadUnitsGo_cons_eq]
    rcases hvan with h | h
    · simp only [h]
    · cases hst : alGet statuses id with
      | none => simp only [hst]
      | some st => simp only [hst, h]
  · intro hid hvan s2 hld
    simp only [load_units_for_activation] at hld
    cases hgo : loadUnitsGo (s.descsOf k) (s.dirtyOf k) s.unit_status s.unit_manager [] [] with
    | error p => simp [hgo] at hld
    | ok res =>
      obtain ⟨statuses, mgr, evs, to_remove⟩ := res
      simp only [hgo] at hld
      have hacc : id ∈ to_remove :=
        loadUnitsGo_mem_remove (s.descsOf k) id (s.dirtyOf k) s.unit_status s.unit_manager
          [] [] (statuses, mgr, evs, to_remove) hgo hid hvan
      rw [Except.ok.injEq] at hld
      subst hld
      cases k with
      | internal => simp [LibraryState.dirtyOf]
      | jig => exact foldl_dsRemove_not_mem to_remove _ id hacc
      | interface => exact foldl_dsRemove_not_mem to_remove _ id hacc
      | logger => exact foldl_dsRemove_not_mem to_remove _ id hacc
      | scenario => exact foldl_dsRemove_not_mem to_remove _ id hacc
      | test => exact foldl_dsRemove_not_mem to_remove _ id hacc
      | trigger => exact foldl_dsRemove_not_mem to_remove _ id hacc

/-- Counterexample to C4 as stated: a library whose only content is one dirty
jig with no status entry; its rescan panics in phase 3 instead of dropping the
id. -/
theorem rescan_missing_status_panics :
    rescan exMissingStatusState = Except.error Panic.dirtyJigMissing := rfl

theorem rescan_vanished_ids_witness :
    (∃ p, rescan exMissingStatusState = Except.error p ∧
      p ∈ [Panic.dirtyJigMissing, Panic.dirtyTestMissing, Panic.dirtyScenarioMissing,
        Panic.dirtyInterfaceMissing, Panic.dirtyLoggerMissing, Panic.dirtyTriggerMissing]) ∧
    loadUnitsGo [] [exJigName] [] exMgr [] [] = loadUnitsGo [] [] [] exMgr [] [exJigName] ∧
    exJigName ∉ (LibraryState.setDirty exMissingStatusState UnitKind.jig []).dirtyOf
      UnitKind.jig := by
  refine ⟨?_, ?_, ?_⟩
  · exact (rescan_vanished_ids exMissingStatusState UnitKind.jig exJigName).1
      (List.mem_singleton.mpr rfl) (by intro h; exact UnitKind.noConfusion h) rfl
  · exact (rescan_vanished_ids exMissingStatusState UnitKind.jig exJigName).2.1
      [] [] [] exMgr [] [] (Or.inl rfl)
  · exact (rescan_vanished_ids exMissingStatusState UnitKind.jig exJigName).2.2
      (List.mem_singleton.mpr rfl) (Or.inl rfl)
      (LibraryState.setDirty exMissingStatusState UnitKind.jig []) rfl

/- ------------------------------------------------------------------
   Lemmas: load failures in phases 4-9 are recorded and broadcast
   ------------------------------------------------------------------ -/

theorem load_unit_error_snd (m : Manager) (d : Desc) (e : String) (evs : List UnitEvent)
    (h : Manager.load_unit m d = (Except.error e, evs)) :
    evs = [UnitEvent.status d.id (UnitStatus.loadFailed e)] := by
  unfold Manager.load_unit at h
  split at h
  · simp at h
  · rw [Prod.mk.injEq] at h
    obtain ⟨h1, h2⟩ := h
    rw [Except.error.injEq] at h1
    subst h1
    exact h2.symm

theorem loadUnitsGo_loadFailed_broadcast (descs : List (UnitName × Desc))
    (hwk : ∀ q ∈ descs, Desc.id q.2 = q.1) (id : UnitName) :
    ∀ (dirty : List UnitName) (statuses : List (UnitName × UnitStatus)) (mgr : Manager)
      (evs : List UnitEvent) (acc : List UnitName)
      (res : List (UnitName × UnitStatus) × Manager × List UnitEvent × List UnitName),
      loadUnitsGo descs dirty statuses mgr evs acc = Except.ok res →
      ∀ e, alGet res.1 id = some (UnitStatus.loadFailed e) →
      alGet statuses id = some (UnitStatus.loadFailed e) ∨
        UnitEvent.status id (UnitStatus.loadFailed e) ∈ res.2.2.1 := by
  intro dirty
  induction dirty with
  | nil =>
    intro statuses mgr evs acc res h e he
    simp only [loadUnitsGo, Except.ok.injEq] at h
    subst h
    exact Or.inl he
  | cons a rest ih =>
    intro statuses mgr evs acc res h e he
    rw [loadUnitsGo_cons_eq] at h
    cases hs2 : alGet statuses a with
    | none =>
      simp only [hs2] at h
      exact ih _ _ _ _ _ h e he
    | some st =>
      cases hd2 : alGet descs a with
      | none =>
        simp only [hs2, hd2] at h
        exact ih _ _ _ _ _ h e he
      | some d =>
        simp only [hs2, hd2] at h
        cases st with
        | loadStarted p =>
          rcases hlv : Manager.load_unit (Manager.unload mgr a) d with ⟨r1, evs2⟩
          cases r1 with
          | ok mgr3 =>
            simp only [hlv] at h
            exact ih _ _ _ _ _ h e he
          | error e2 =>
            simp only [hlv] at h
            rcases ih _ _ _ _ _ h e he with hg | hg
            · by_cases hia : id = a
              · subst hia
                rw [alGet_alInsert_self] at hg
                simp only [Option.some.injEq, UnitStatus.loadFailed.injEq] at hg
                have hsnd := load_unit_error_snd (Manager.unload mgr id) d e2 evs2 hlv
                rw [hg] at hsnd
                have hdid : Desc.id d = id := hwk (id, d) (alGet_mem descs id d hd2)
                refine Or.inr ((loadUnitsGo_mono descs rest _ _ _ _ _ h).2 _ ?_)
                apply List.mem_append_right
                rw [hsnd, hdid]
                exact List.mem_singleton.mpr rfl
              · rw [alGet_alInsert_ne _ _ _ _ hia] at hg
                exact Or.inl hg
            · exact Or.inr hg
        | updateStarted p =>
          rcases hlv : Manager.load_unit (Manager.unload mgr a) d with ⟨r1, evs2⟩
          cases r1 with
          | ok mgr3 =>
            simp only [hlv] at h
            exact ih _ _ _ _ _ h e he
          | error e2 =>
            simp only [hlv] at h
            rcases ih _ _ _ _ _ h e he with hg | hg
            · by_cases hia : id = a
              · subst hia
                rw [alGet_alInsert_self] at hg
                simp only [Option.some.injEq, UnitStatus.loadFailed.injEq] at hg
                have hsnd := load_unit_error_snd (Manager.unload mgr id) d e2 evs2 hlv
                rw [hg] at hsnd
                have hdid : Desc.id d = id := hwk (id, d) (alGet_mem descs id d hd2)
                refine Or.inr ((loadUnitsGo_mono descs rest _ _ _ _ _ h).2 _ ?_)
                apply List.mem_append_right
                rw [hsnd, hdid]
                exact List.mem_singleton.mpr rfl
              · rw [alGet_alInsert_ne _ _ _ _ hia] at hg
                exact Or.inl hg
            · exact Or.inr hg
        | unloadStarted p => simp at h
        | loadFailed r => simp at h

/-- C5: in the load loops of phases 4-9 a load failure with reason `e` —
compatibility failures included — both records `LoadFailed e` in the status
table and broadcasts the matching status event.  (1) The failing per-id step
replaces the unit's status with `LoadFailed e` and appends exactly
`UnitEvent.status d.id (UnitStatus.loadFailed e)` to the broadcast log.
(2) Lifted to a whole `load_units_for_activation!` pass whose stored
descriptions are keyed by their own ids: any `LoadFailed e` found in the
resulting status table was either already there before the pass, or the
matching status event is in the resulting broadcast log — no silent
failures. -/
theorem load_failure_recorded_and_broadcast :
    (∀ (descs : List (UnitName × Desc)) (id : UnitName) (rest : List UnitName)
        (statuses : List (UnitName × UnitStatus)) (mgr : Manager)
        (evs : List UnitEvent) (acc : List UnitName) (pth : Path) (d : Desc) (e : String),
      alGet statuses id = some (UnitStatus.loadStarted pth) →
      alGet descs id = some d →
      (Manager.load_unit (Manager.unload mgr id) d).1 = Except.error e →
      loadUnitsGo descs (id :: rest) statuses mgr evs acc =
        loadUnitsGo descs rest (alInsert statuses id (UnitStatus.loadFailed e))
          (Manager.unload mgr id)
          (evs ++ [UnitEvent.status d.id (UnitStatus.loadFailed e)]) (acc ++ [id])) ∧
    (∀ (s : LibraryState) (k : UnitKind) (s2 : LibraryState),
      (∀ q ∈ s.descsOf k, Desc.id q.2 = q.1) →
      load_units_for_activation s k = Except.ok s2 →
      ∀ (id : UnitName) (e : String),
        alGet s2.unit_status id = some (UnitStatus.loadFailed e) →
        alGet s.unit_status id = some (UnitStatus.loadFailed e) ∨
          UnitEvent.status id (UnitStatus.loadFailed e) ∈ s2.broadcasts) := by
  constructor
  · intro descs id rest statuses mgr evs acc pth d e h1 h2 h3
    rw [loadUnitsGo_cons_eq]
    simp only [h1, h2]
    rcases hlv : Manager.load_unit (Manager.unload mgr id) d with ⟨r1, evs2⟩
    rw [hlv] at h3
    have h3e : r1 = Except.error e := h3
    subst h3e
    have hsnd := load_unit_error_snd (Manager.unload mgr id) d e evs2 hlv
    simp only [hlv]
    rw [hsnd]
  · intro s k s2 hwk hld id e hst
    simp only [load_units_for_activation] at hld
    cases hgo : loadUnitsGo (s.descsOf k) (s.dirtyOf k) s.unit_status s.unit_manager [] [] with
    | error p => simp [hgo] at hld
    | ok res =>
      obtain ⟨statuses, mgr, evs, to_remove⟩ := res
      simp only [hgo] at hld
      rw [Except.ok.injEq] at hld
      subst hld
      have hb := loadUnitsGo_loadFailed_broadcast (s.descsOf k) hwk id (s.dirtyOf k)
        s.unit_status s.unit_manager [] [] (statuses, mgr, evs, to_remove) hgo e hst
      rcases hb with hb | hb
      · exact Or.inl hb
      · exact Or.inr (List.mem_append_right _ hb)

theorem load_failure_recorded_and_broadcast_witness :
    (loadUnitsGo [(exIfaceName, exIncompatDesc)] [exIfaceName]
        [(exIfaceName, UnitStatus.loadStarted "op.interface")] exMgr [] [] =
      loadUnitsGo [(exIfaceName, exIncompatDesc)] []
        (alInsert [(exIfaceName, UnitStatus.loadStarted "op.interface")] exIfaceName
          (UnitStatus.loadFailed incompatibleJigReason))
        (Manager.unload exMgr exIfaceName)
        ([] ++ [UnitEvent.status exIncompatDesc.id (UnitStatus.loadFailed incompatibleJigReason)])
        ([] ++ [exIfaceName])) ∧
    (alGet exIncompatState.unit_status exIfaceName =
        some (UnitStatus.loadFailed incompatibleJigReason) ∨
      UnitEvent.status exIfaceName (UnitStatus.loadFailed incompatibleJigReason) ∈
        exIncompatAfterLoad.broadcasts) := by
  constructor
  · exact load_failure_recorded_and_broadcast.1 [(exIfaceName, exIncompatDesc)] exIfaceName []
      [(exIfaceName, UnitStatus.loadStarted "op.interface")] exMgr [] [] "op.interface"
      exIncompatDesc incompatibleJigReason rfl rfl rfl
  · exact load_failure_recorded_and_broadcast.2 exIncompatState UnitKind.interface
      exIncompatAfterLoad
      (by
        intro q hq
        have hq2 : q = (exIfaceName, exIncompatDesc) := List.mem_singleton.mp hq
        subst hq2
        rfl)
      rfl exIfaceName incompatibleJigReason rfl

end Exclave
